import Mathlib

/-!
# SPIRE agent/server core: drain coordinator, bundle read cache, stream manager

A shallow embedding of

* `pkg/agent/client/waitgroup.go` (the drain coordinator `waitGroup`),
* `pkg/server/endpoints/bundlecache.go` (the bundle read cache `bundleCache`),
* `api/workload/v2/stream.go` (the reconnecting `streamManager`),
* `pkg/agent/manager/config.go` (the constructor `New` of the cache manager),
* `pkg/common/plugin/docker/docker.go` (the container id finder),

together with theorems about them.

Conventions.  Mutable receivers become explicit state passing.  Clock readings
and durations are integers (nanoseconds).  Blocking constructs (`select`,
channel sends and receives) are evaluated against an explicit description of
what the environment does, so that every definition is a total computable
function.
-/

namespace Spire

/-! ## Drain coordinator (`pkg/agent/client/waitgroup.go`) -/

/-- State of a `waitGroup`: the counter of the embedded `sync.WaitGroup` and the
`isDraining` flag.  The mutex only provides atomicity of each critical section,
which is what a sequential step is here. -/
structure waitGroup where
  wg : Int
  isDraining : Bool
deriving DecidableEq, Repr

/-- The zero value `&waitGroup{}`: no holder, not draining. -/
def waitGroup.fresh : waitGroup := { wg := 0, isDraining := false }

/-- The two errors of `context.Context.Err()`. -/
inductive CtxErr where
  | canceled
  | deadlineExceeded
deriving DecidableEq, Repr

/-- Errors returned by the drain coordinator. -/
inductive WgErr where
  /-- Value `errors.New("failed to fetch: client is draining requests")`. -/
  | draining
  /-- Value `errors.New("client timed out waiting for requests to drain")`. -/
  | timedOut
  /-- Value `ctx.Err()`. -/
  | ctx (e : CtxErr)
deriving DecidableEq, Repr

/-- Text of `err.Error()`. -/
def WgErr.Error : WgErr → String
  | .draining => "failed to fetch: client is draining requests"
  | .timedOut => "client timed out waiting for requests to drain"
  | .ctx .canceled => "context canceled"
  | .ctx .deadlineExceeded => "context deadline exceeded"

/-- Conversion of an integer to `int32`, the type of the counter of `sync.WaitGroup`. -/
def int32Wrap (x : Int) : Int := (x + 2147483648) % 4294967296 - 2147483648

/-- Method `Inc`: under the read lock, fail when draining, otherwise `wg.Add(1)`.
Returns the new state and the returned error (inner `none` is `nil`).  `Add` panics
(outer `none`) when the `int32` counter becomes negative, which the increment of
`2147483647` does. -/
def waitGroup.Inc (n : waitGroup) : Option (waitGroup × Option WgErr) :=
  if n.isDraining then some (n, some .draining)
  else if int32Wrap (n.wg + 1) < 0 then none
  else some ({ n with wg := int32Wrap (n.wg + 1) }, none)

/-- Method `Done`: `wg.Done()`, that is `wg.Add(-1)`.  `sync.WaitGroup` panics
when the counter becomes negative; that is `none`. -/
def waitGroup.Done (n : waitGroup) : Option waitGroup :=
  if n.wg - 1 < 0 then none else some { n with wg := n.wg - 1 }

/-- The three cases of the `select` in `Wait`. -/
inductive WaitCase where
  | done
  | timeout
  | ctxDone
deriving DecidableEq, Repr

/-- What happens around one call of `Wait`, with instants in nanoseconds counted
from the moment the `select` is entered (an event that has already happened by
then has instant `0`).

* `holdersDoneAt`: when the holders outstanding at the call have all called
  `Done` (`none`: they never all do);
* `helperDelay`: the time the helper goroutine started by `Wait` takes, from the later
  of the entry of the `select` and the counter reaching zero, until it has executed
  `close(done)` (`0`: `done` is closed by then);
* `ctxDoneAt`: when `ctx.Done()` is closed (`none`: never; `some 0`: the context
  was already cancelled at the call);
* `ctxErr`: the value of `ctx.Err()` once the context is done;
* `rand`: the pseudo-random number with which `select` chooses among several
  cases that are ready together. -/
structure WaitEnv where
  holdersDoneAt : Option Nat
  helperDelay : Nat
  ctxDoneAt : Option Nat
  ctxErr : CtxErr
  rand : Nat
deriving DecidableEq, Repr

/-- Duration `5 * time.Second` in nanoseconds. -/
def drainTimeout : Nat := 5 * 1000000000

/-- Instant at which the counter of the `sync.WaitGroup` is zero: at once when it is
zero at the call, otherwise when the outstanding holders have all called `Done`. -/
def zeroAt (n : waitGroup) (env : WaitEnv) : Option Nat :=
  if n.wg = 0 then some 0 else env.holdersDoneAt

/-- Instant at which the helper goroutine `go func() { n.wg.Wait(); close(done) }()`
has closed `done`: its `wg.Wait()` returns once the counter is zero, and the goroutine
then needs `helperDelay` to run `close(done)`. -/
def doneClosedAt (n : waitGroup) (env : WaitEnv) : Option Nat :=
  (zeroAt n env).map (fun t => t + env.helperDelay)

/-- Instant at which a case of the `select` becomes ready, given the instants
`d` of `close(done)` and `c` of the closing of `ctx.Done()`; the timer made by
`time.After(5 * time.Second)` fires at `drainTimeout`. -/
def readyAt (d c : Option Nat) : WaitCase → Option Nat
  | .done => d
  | .timeout => some drainTimeout
  | .ctxDone => c

/-- Instant at which the `select` stops blocking: the earliest instant at which
some case is ready.  The timer case bounds it by `drainTimeout`. -/
def selectWakes (d c : Option Nat) : Nat :=
  let t1 := match d with
    | some x => min x drainTimeout
    | none => drainTimeout
  match c with
  | some y => min y t1
  | none => t1

/-- Cases ready at the instant the `select` wakes, in source order. -/
def readyCases (d c : Option Nat) : List WaitCase :=
  [WaitCase.done, WaitCase.timeout, WaitCase.ctxDone].filter
    (fun k => readyAt d c k == some (selectWakes d c))

/-- The case the `select` takes: one of the ready cases, chosen by `rand`. -/
def selectCase (d c : Option Nat) (rand : Nat) : WaitCase :=
  let rs := readyCases d c
  rs.getD (rand % rs.length) WaitCase.timeout

/-- Method `Wait`: under the write lock set `isDraining`, then `select` on the
helper's `done`, the 5 second timer and `ctx.Done()`. -/
def waitGroup.Wait (n : waitGroup) (env : WaitEnv) : waitGroup × Option WgErr :=
  let n1 := { n with isDraining := true }
  match selectCase (doneClosedAt n1 env) env.ctxDoneAt env.rand with
  | .done => (n1, none)
  | .timeout => (n1, some .timedOut)
  | .ctxDone => (n1, some (.ctx env.ctxErr))

/-- A call on the coordinator. -/
inductive WgOp where
  | inc
  | done
  | wait (env : WaitEnv)
deriving DecidableEq, Repr

/-- What a call returned: an error value or `nil`, or a panic. -/
inductive WgRes where
  | ret (err : Option WgErr)
  | panicked
deriving DecidableEq, Repr

/-- One executed call: the call, the states before and after, and the result. -/
structure WgEvent where
  op : WgOp
  before : waitGroup
  after : waitGroup
  res : WgRes
deriving DecidableEq, Repr

/-- Run a sequence of calls from state `n`, recording each call.  A panic in
`Inc` or `Done` ends the run. -/
def wgRun : waitGroup → List WgOp → List WgEvent
  | _, [] => []
  | n, .inc :: ops =>
      match n.Inc with
      | some r => { op := .inc, before := n, after := r.1, res := .ret r.2 } :: wgRun r.1 ops
      | none => [{ op := .inc, before := n, after := n, res := .panicked }]
  | n, .done :: ops =>
      match n.Done with
      | some n1 => { op := .done, before := n, after := n1, res := .ret none } :: wgRun n1 ops
      | none => [{ op := .done, before := n, after := n, res := .panicked }]
  | n, .wait env :: ops =>
      let r := n.Wait env
      { op := .wait env, before := n, after := r.1, res := .ret r.2 } :: wgRun r.1 ops

/-- Whether a call is an `Inc`. -/
def WgOp.isInc : WgOp → Bool
  | .inc => true
  | _ => false

/-- Instant `a` comes, and strictly earlier than `b` (`none` never comes). -/
def strictlyBefore : Option Nat → Option Nat → Bool
  | some x, some y => decide (x < y)
  | some _, none => true
  | none, _ => false

/-- Instant `a` comes, and not later than `b`. -/
def notAfter : Option Nat → Option Nat → Bool
  | some x, some y => decide (x ≤ y)
  | some _, none => true
  | none, _ => false

/-- The counter reaches zero strictly before the timer fires and strictly before
`ctx.Done()` is closed. -/
def countZeroFirst (n : waitGroup) (env : WaitEnv) : Bool :=
  strictlyBefore (zeroAt n env) (some drainTimeout) &&
    strictlyBefore (zeroAt n env) env.ctxDoneAt

/-- The helper goroutine closes `done` strictly before the timer fires and strictly
before `ctx.Done()` is closed. -/
def drainedFirst (n : waitGroup) (env : WaitEnv) : Bool :=
  strictlyBefore (doneClosedAt n env) (some drainTimeout) &&
    strictlyBefore (doneClosedAt n env) env.ctxDoneAt

/-- The timer fires strictly before the other two events. -/
def timeoutFirst (n : waitGroup) (env : WaitEnv) : Bool :=
  strictlyBefore (some drainTimeout) (doneClosedAt n env) &&
    strictlyBefore (some drainTimeout) env.ctxDoneAt

/-- The context is done strictly before the other two events. -/
def cancelFirst (n : waitGroup) (env : WaitEnv) : Bool :=
  strictlyBefore env.ctxDoneAt (doneClosedAt n env) &&
    strictlyBefore env.ctxDoneAt (some drainTimeout)

/-- State of a `bundleCache` over bundles of type `β`.  `bundle` is the stored
pointer (`none` is `nil`).  `timeNow` is the injected clock: it maps the wall
clock reading at the call to the reading the cache sees. -/
structure bundleCache (β : Type) where
  ttl : Int
  timeNow : Int → Int
  bundle : Option β
  expiresAt : Int

/-- Constant `defaultBundleCacheTTL = time.Second`. -/
def defaultBundleCacheTTL : Int := 1000000000

/-- Constructor `newBundleCache`: default TTL, the real clock, nothing stored
and the zero `time.Time` as expiry. -/
def newBundleCache (β : Type) : bundleCache β :=
  { ttl := defaultBundleCacheTTL, timeNow := fun w => w, bundle := none, expiresAt := 0 }

/-- Constructor `newNoopBundleCache`: TTL of minus one second and a clock that
always reads the zero `time.Time`. -/
def newNoopBundleCache (β : Type) : bundleCache β :=
  { ttl := -1 * 1000000000, timeNow := fun _ => 0, bundle := none, expiresAt := 0 }

/-- Method `Get` at wall clock reading `w`:
`if c.timeNow().After(c.expiresAt) { return nil }; return c.bundle`. -/
def bundleCache.Get {β : Type} (c : bundleCache β) (w : Int) : Option β :=
  if c.timeNow w > c.expiresAt then none else c.bundle

/-- Method `Set` at wall clock reading `w`:
`c.expiresAt = c.timeNow().Add(c.ttl); c.bundle = bundle`. -/
def bundleCache.Set {β : Type} (c : bundleCache β) (b : Option β) (w : Int) : bundleCache β :=
  { c with expiresAt := c.timeNow w + c.ttl, bundle := b }

/-! ## Reconnecting stream manager (`api/workload/v2/stream.go`) -/

/-- A Go channel: capacity, buffered values (oldest first) and the closed flag. -/
structure GoChan (α : Type) where
  cap : Nat
  buf : List α
  closed : Bool
deriving DecidableEq, Repr

/-- Builtin `make(chan α, cap)`. -/
def GoChan.make (α : Type) (cap : Nat) : GoChan α := { cap := cap, buf := [], closed := false }

/-- Outcome of a channel send with no receiver waiting. -/
inductive SendRes (α : Type) where
  /-- The value was buffered and the sender goes on. -/
  | sent (c : GoChan α)
  /-- The buffer is full: the sender is parked until a receive makes room. -/
  | blocks
  /-- Send on a closed channel. -/
  | panics
deriving DecidableEq, Repr

/-- Statement `c <- v`. -/
def GoChan.send {α : Type} (c : GoChan α) (v : α) : SendRes α :=
  if c.closed then .panics
  else if c.buf.length < c.cap then .sent { c with buf := c.buf ++ [v] }
  else .blocks

/-- Outcome of a channel receive with no sender waiting. -/
inductive RecvRes (α : Type) where
  /-- The oldest buffered value is taken. -/
  | got (v : α) (c : GoChan α)
  /-- The channel is closed and empty: zero value, `ok = false`. -/
  | closedEmpty
  /-- The channel is open and empty: the receiver is parked. -/
  | blocks
deriving DecidableEq, Repr

/-- Expression `<-c`. -/
def GoChan.recv {α : Type} (c : GoChan α) : RecvRes α :=
  match c.buf with
  | v :: rest => .got v { c with buf := rest }
  | [] => if c.closed then .closedEmpty else .blocks

/-- Builtin `close(c)`; closing a closed channel panics (`none`). -/
def GoChan.close {α : Type} (c : GoChan α) : Option (GoChan α) :=
  if c.closed then none else some { c with closed := true }

/-- A `managedStream`: the stream client and the `closer` (the connection),
each identified by a number. -/
structure managedStream where
  stream : Nat
  closer : Nat
deriving DecidableEq, Repr

/-- State of a `streamManager`.  `connectionChan` is the caller's channel; it
is represented by the list of values sent on it so far (its receiver is taken
to be ready).  `loops` counts the running background goroutines. -/
structure streamManager where
  Chan : GoChan managedStream
  addr : String
  reconnectChan : GoChan Unit
  connectionChan : List Bool
  loops : Nat
deriving DecidableEq, Repr

/-- Constructor `newStreamManager`: both channels are made with capacity 1. -/
def newStreamManager (addr : String) : streamManager :=
  { Chan := GoChan.make managedStream 1
    addr := addr
    reconnectChan := GoChan.make Unit 1
    connectionChan := []
    loops := 0 }

/-- Outcome of a call that may park its goroutine on a channel. -/
inductive CallRes (σ : Type) where
  | returns (s : σ)
  | blocks
  | panics
deriving DecidableEq, Repr

/-- Method `Reconnect`: the plain send `c.reconnectChan <- struct{}{}`. -/
def streamManager.Reconnect (c : streamManager) : CallRes streamManager :=
  match c.reconnectChan.send () with
  | .sent ch => .returns { c with reconnectChan := ch }
  | .blocks => .blocks
  | .panics => .panics

/-- Function `strings.HasPrefix`. -/
def HasPrefix (s p : String) : Bool := p.toList.isPrefixOf s.toList

/-- Errors made by `newConn`. -/
inductive ConnErr where
  /-- Error "spiffe/workload: agent address %q is not a unix address". -/
  | notUnix (addr : String)
  /-- Error "spiffe/workload: failed to dial workload API at %q: %v". -/
  | dialFailed (addr : String) (cause : String)
deriving DecidableEq, Repr

/-- Error of one connect attempt: from `newConn` or from `newX509SVIDStream`. -/
inductive AttemptErr where
  | conn (e : ConnErr)
  | fetch (cause : String)
deriving DecidableEq, Repr

/-- What the environment does in one iteration of the loop in `newStream`:
the outcome of `grpc.DialContext` and of `FetchX509SVID` (each consulted only
if reached), and for the retry `select` whether `ctx.Done()` is taken
(`some e`, with `e` the value of `ctx.Err()`) or the backoff timer fires. -/
structure Attempt where
  dial : Except String Nat
  fetch : Except String Nat
  ctxDone : Option CtxErr
deriving Repr

/-- Function `newConn`: reject an address without the `unix://` scheme, else dial. -/
def newConn (addr : String) (dial : Except String Nat) : Except ConnErr Nat :=
  if !HasPrefix addr "unix://" then .error (.notUnix addr)
  else match dial with
    | .error e => .error (.dialFailed addr e)
    | .ok conn => .ok conn

/-- Function `newX509SVIDStream`: the outcome of `FetchX509SVID` on the connection. -/
def newX509SVIDStream (_conn : Nat) (fetch : Except String Nat) : Except String Nat := fetch

/-- One pass through the body of the loop in `newStream`, up to the label `retry`. -/
def connectOnce (addr : String) (a : Attempt) : Except AttemptErr managedStream :=
  match newConn addr a.dial with
  | .error e => .error (.conn e)
  | .ok conn =>
    match newX509SVIDStream conn a.fetch with
    | .ok stream => .ok { stream := stream, closer := conn }
    | .error e => .error (.fetch e)

/-- Record of one call of `newStream`: the number of connect attempts made, the
errors of the failed ones, the backoff durations passed to `time.After` in
order, the result (`none` while the environment description is used up and the
call is still retrying), and the unused part of the description. -/
structure StreamRun where
  attempts : Nat
  errors : List AttemptErr
  timers : List Nat
  result : Option (Except CtxErr managedStream)
  rest : List Attempt
deriving Repr

/-- Function `newStream`, from the `k`-th iteration on.  `backoff k` is the value
of the `k`-th call of `Duration()` on the backoff made by `newBackoff()`. -/
def newStreamFrom (backoff : Nat → Nat) (addr : String) : Nat → List Attempt → StreamRun
  | k, [] => { attempts := k, errors := [], timers := [], result := none, rest := [] }
  | k, a :: rest =>
    match connectOnce addr a with
    | .ok h => { attempts := k + 1, errors := [], timers := [], result := some (.ok h), rest := rest }
    | .error e =>
      match a.ctxDone with
      | some ce =>
        { attempts := k + 1, errors := [e], timers := [backoff k],
          result := some (.error ce), rest := rest }
      | none =>
        let r := newStreamFrom backoff addr (k + 1) rest
        { r with errors := e :: r.errors, timers := backoff k :: r.timers }

/-- Function `newStream`: a fresh backoff, then attempts until one succeeds or
the context is done during a backoff wait. -/
def newStream (backoff : Nat → Nat) (addr : String) (script : List Attempt) : StreamRun :=
  newStreamFrom backoff addr 0 script

/-- How a call of `Start` ends. -/
inductive StartRes where
  /-- Returned `nil`. -/
  | ok
  /-- Returned the error of `newStream`. -/
  | err (e : CtxErr)
  /-- Still inside `newStream` when the environment description ends. -/
  | retrying
  /-- Parked on `c.Chan <- ...` because the buffer is full. -/
  | blocksOnChan
  /-- Panicked on a send on the closed `Chan`. -/
  | panics
deriving DecidableEq, Repr

/-- Method `Start`: one `newStream`; on error return it; otherwise send the
handle on `Chan`, send `true` on `connectionChan`, start the background loop. -/
def streamManager.Start (c : streamManager) (backoff : Nat → Nat) (script : List Attempt) :
    streamManager × StartRes × StreamRun :=
  let r := newStream backoff c.addr script
  match r.result with
  | none => (c, .retrying, r)
  | some (.error e) => (c, .err e, r)
  | some (.ok h) =>
    match c.Chan.send h with
    | .blocks => (c, .blocksOnChan, r)
    | .panics => (c, .panics, r)
    | .sent ch =>
      ({ c with Chan := ch, connectionChan := c.connectionChan ++ [true], loops := c.loops + 1 },
        .ok, r)

/-- Which case the `select` of the background loop takes. -/
inductive LoopWake where
  | reconnect
  | ctxDone
deriving DecidableEq, Repr

/-- How one iteration of the background loop ends. -/
inductive LoopRes where
  /-- The iteration is complete and the loop selects again. -/
  | continues
  /-- The goroutine returned. -/
  | exits
  /-- The chosen case is not ready. -/
  | notReady
  /-- Still inside `newStream` when the environment description ends. -/
  | retrying
  /-- Parked on `c.Chan <- ...` because the buffer is full. -/
  | blocksOnChan
  | panics
deriving DecidableEq, Repr

/-- A completed send of the manager: a value on the connectivity channel or a handle on
`Chan`. -/
inductive Emit where
  | connectivity (up : Bool)
  | handle (h : managedStream)
deriving DecidableEq, Repr

/-- Statement `c.connectionChan <- up`, with the record `sent` of the sends completed so
far in the iteration: the value goes to the connectivity channel and the send is
recorded. -/
def streamManager.sendConnectivity (c : streamManager) (sent : List Emit) (up : Bool) :
    streamManager × List Emit :=
  ({ c with connectionChan := c.connectionChan ++ [up] }, sent ++ [Emit.connectivity up])

/-- Statement `c.Chan <- h`, with the record `sent`: when the handle is buffered the send
is recorded; when the send blocks or panics nothing is sent and the way the iteration
ends is returned. -/
def streamManager.sendHandle (c : streamManager) (sent : List Emit) (h : managedStream) :
    Except LoopRes (streamManager × List Emit) :=
  match c.Chan.send h with
  | .blocks => Except.error LoopRes.blocksOnChan
  | .panics => Except.error LoopRes.panics
  | .sent ch => Except.ok ({ c with Chan := ch }, sent ++ [Emit.handle h])

/-- One iteration of the background loop of `Start`, taking the `select` case
`wake`.  On a reconnect signal: send `false`, call `newStream` with the
manager's context, on error return, else send the handle and `true`.  On
`ctx.Done()`: close `Chan` and return.  The last component is the record of the
sends completed in the iteration, in the order in which they were made. -/
def streamManager.loopStep (c : streamManager) (backoff : Nat → Nat) (wake : LoopWake)
    (script : List Attempt) : streamManager × LoopRes × Option StreamRun × List Emit :=
  match wake with
  | .ctxDone =>
    match c.Chan.close with
    | some ch => ({ c with Chan := ch, loops := c.loops - 1 }, .exits, none, [])
    | none => (c, .panics, none, [])
  | .reconnect =>
    match c.reconnectChan.recv with
    | .blocks => (c, .notReady, none, [])
    | .closedEmpty => (c, .continues, none, [])
    | .got _ rc =>
      let s1 := streamManager.sendConnectivity { c with reconnectChan := rc } [] false
      let r := newStream backoff c.addr script
      match r.result with
      | none => (s1.1, .retrying, some r, s1.2)
      | some (.error _) => ({ s1.1 with loops := s1.1.loops - 1 }, .exits, some r, s1.2)
      | some (.ok h) =>
        match s1.1.sendHandle s1.2 h with
        | .error res => (s1.1, res, some r, s1.2)
        | .ok s2 =>
          let s3 := s2.1.sendConnectivity s2.2 true
          (s3.1, .continues, some r, s3.2)

/-- An attempt description: the dial is refused and the backoff timer then fires. -/
def dialRefused : Attempt :=
  { dial := Except.error "connection refused", fetch := Except.ok 0, ctxDone := none }

/-- An attempt description: the dial is refused and the context is cancelled during the
backoff wait. -/
def dialRefusedThenCancelled : Attempt :=
  { dial := Except.error "connection refused", fetch := Except.ok 0,
    ctxDone := some CtxErr.canceled }

/-- An attempt description: the dial gives connection `conn` and the stream request on it
gives stream `stream`. -/
def connects (conn stream : Nat) : Attempt :=
  { dial := Except.ok conn, fetch := Except.ok stream, ctxDone := none }

/-- A backoff sequence doubling from one second, in nanoseconds. -/
def doubling (k : Nat) : Nat := 1000000000 * 2 ^ k

/-- Address of a local agent socket. -/
def agentSock : String := "unix:///tmp/agent.sock"

/-- A manager on `agentSock` after a `Start` whose first attempt gave connection 1 and
stream 2, whose handle has not been read from `Chan`, and after one `Reconnect()`. -/
def startedWithSignal : streamManager :=
  match ((newStreamManager agentSock).Start doubling [connects 1 2]).1.Reconnect with
  | .returns s => s
  | _ => newStreamManager agentSock

/-- A TCP address, which lacks the `unix://` scheme. -/
def tcpAddr : String := "tcp://127.0.0.1:8081"

/-- A call on the bundle cache, made at wall clock reading `w`. -/
inductive CacheOp (β : Type) where
  | get (w : Int)
  | set (b : Option β) (w : Int)

/-- Wall clock reading at which a call is made. -/
def CacheOp.wall {β : Type} : CacheOp β → Int
  | .get w => w
  | .set _ w => w

/-- Run a sequence of `Get` and `Set` calls from state `c`: the final state and the
results of the `Get` calls in order.  `Get` only reads the cache. -/
def cacheRun {β : Type} : bundleCache β → List (CacheOp β) → bundleCache β × List (Option β)
  | c, [] => (c, [])
  | c, .get w :: ops => ((cacheRun c ops).1, c.Get w :: (cacheRun c ops).2)
  | c, .set b w :: ops => cacheRun (c.Set b w) ops

/-- Function `multierr.Combine` of the library `go.uber.org/multierr`: `nil` (`none`) when
every argument is `nil`, otherwise an error that holds the non-nil arguments in order (a
single one is returned as it is). -/
def multierrCombine (errs : List (Option String)) : Option (List String) :=
  match errs.filterMap id with
  | [] => none
  | es => some es

/-- The two releases made by `managedStream.Close`. -/
inductive Release where
  /-- Call `s.SpiffeWorkloadAPI_FetchX509SVIDClient.CloseSend()`. -/
  | closeSend
  /-- Call `s.closer.Close()`. -/
  | closerClose
deriving DecidableEq, Repr

/-- Record of one call of `Close`: the releases called, in order, and the returned error. -/
structure CloseRun where
  calls : List Release
  err : Option (List String)
deriving DecidableEq, Repr

/-- Method `managedStream.Close`: `multierr.Combine(s.CloseSend(), s.closer.Close())`.
Both arguments are evaluated, left to right, before `Combine` is called; `closeSend`
and `closerClose` are the errors the two calls return (`none` is `nil`). -/
def managedStream.Close (_s : managedStream) (closeSend closerClose : Option String) : CloseRun :=
  { calls := [Release.closeSend, Release.closerClose]
    err := multierrCombine [closeSend, closerClose] }

/-! ## Cache manager construction (`pkg/agent/manager/config.go`) -/

/-- Type `attestor.AttestationResult`: the SVID chain (certificates by number), the key
and the bundle. -/
structure AttestationResult where
  SVID : List Nat
  Key : Nat
  Bundle : Nat
deriving DecidableEq, Repr

/-- Method `fake.Attest` of `test/fakes/fakeattestor`: the stored chain, key and bundle,
with a `nil` error. -/
def fakeAttest (svid : List Nat) (key bundle : Nat) : Except String AttestationResult :=
  Except.ok { SVID := svid, Key := key, Bundle := bundle }

/-- The fields of `Config` that `New` reads or writes.  `Clk` is `none` for `nil`. -/
structure Config where
  TrustDomain : String
  ServerAddr : String
  SVIDCachePath : String
  BundleCachePath : String
  SyncInterval : Int
  RotationInterval : Int
  Clk : Option Nat
deriving DecidableEq, Repr

/-- The `manager` built by `New`: the cache is seeded with the bundle, the rotator is
configured with the chain, key, identity, interval and clock. -/
structure manager where
  cacheBundle : Nat
  rotatorSVID : List Nat
  rotatorKey : Nat
  rotatorInterval : Int
  spiffeID : String
  svidCachePath : String
  bundleCachePath : String
  clk : Option Nat
deriving DecidableEq, Repr

/-- Errors returned by `New`. -/
inductive NewErr where
  /-- Error "failed to attest: %v". -/
  | attest (cause : String)
  /-- Error "cannot get spiffe id from SVID: %v". -/
  | spiffeID (cause : String)
deriving DecidableEq, Repr

/-- Record of one call of `New`: what it returned (`none` when it panicked), the caller's
`Config` after the call, and whether `cache.New` and `svid.NewRotator` were called. -/
structure NewRun where
  result : Option (Except NewErr manager)
  config : Config
  cacheBuilt : Bool
  rotatorBuilt : Bool
deriving Repr

/-- Function `New`.  `attest` is what `c.Attestor.Attest(ctx)` returns,
`getSpiffeIDFromSVID` the helper of the package, `DefaultRotatorInterval` the constant
`svid.DefaultRotatorInterval`, `clockNew` the clock made by `clock.New()`.  The index
expression `as.SVID[0]` panics on an empty chain. -/
def New (c : Config) (attest : Except String AttestationResult)
    (getSpiffeIDFromSVID : Nat → Except String String) (DefaultRotatorInterval : Int)
    (clockNew : Nat) : NewRun :=
  match attest with
  | .error e =>
    { result := some (.error (.attest e)), config := c, cacheBuilt := false,
      rotatorBuilt := false }
  | .ok res =>
    match res.SVID[0]? with
    | none => { result := none, config := c, cacheBuilt := false, rotatorBuilt := false }
    | some cert =>
      match getSpiffeIDFromSVID cert with
      | .error e =>
        { result := some (.error (.spiffeID e)), config := c, cacheBuilt := false,
          rotatorBuilt := false }
      | .ok spiffeID =>
        let c1 := if c.SyncInterval = 0 then { c with SyncInterval := 5 * 1000000000 } else c
        let c2 := if c1.RotationInterval = 0
          then { c1 with RotationInterval := DefaultRotatorInterval } else c1
        let c3 := if c2.Clk = none then { c2 with Clk := some clockNew } else c2
        { result := some (.ok
            { cacheBundle := res.Bundle
              rotatorSVID := res.SVID
              rotatorKey := res.Key
              rotatorInterval := c3.RotationInterval
              spiffeID := spiffeID
              svidCachePath := c3.SVIDCachePath
              bundleCachePath := c3.BundleCachePath
              clk := c3.Clk })
          config := c3
          cacheBuilt := true
          rotatorBuilt := true }

/-- A configuration with every interval and the clock left unset. -/
def sampleConfig : Config :=
  { TrustDomain := "spiffe://example.org"
    ServerAddr := "127.0.0.1:8081"
    SVIDCachePath := "/tmp/agent_svid.der"
    BundleCachePath := "/tmp/bundle.der"
    SyncInterval := 0
    RotationInterval := 0
    Clk := none }

/-- A stand-in for `getSpiffeIDFromSVID`: certificate 0 carries no identity. -/
def sampleSpiffeID (cert : Nat) : Except String String :=
  if cert = 0 then Except.error "certificate does not contain a URI SAN"
  else Except.ok "spiffe://example.org/spire/agent/test"

/-! ## Container id finder (`pkg/common/plugin/docker/docker.go`) -/

/-- Constant `WildcardToken = "*"`. -/
def WildcardToken : List Char := "*".toList

/-- Constant `ContainerIDToken = "<id>"`. -/
def ContainerIDToken : List Char := "<id>".toList

/-- Constant `regexpWildcard`, the six characters `[^\/]*`. -/
def regexpWildcard : List Char := "[^\\/]*".toList

/-- Constant `regexpWildcardSubmatch`, the eight characters `([^\/]*)`. -/
def regexpWildcardSubmatch : List Char := "([^\\/]*)".toList

/-- Function `strings.Count(s, sub)` for a non-empty `sub`: the number of non-overlapping
instances of `sub`, found from the left.  `skip` is the number of characters of the
instance just found that are still to be passed over. -/
def countFrom (sub : List Char) : Nat → List Char → Nat
  | _, [] => 0
  | skip + 1, _ :: cs => countFrom sub skip cs
  | 0, c :: cs =>
    if sub.isPrefixOf (c :: cs) then 1 + countFrom sub (sub.length - 1) cs
    else countFrom sub 0 cs

/-- Function `strings.Replace(s, old, new, n)` for a non-empty `old`: the first `n`
non-overlapping instances of `old` replaced by `new`; `limit = none` stands for `n < 0`,
as in `strings.ReplaceAll`. -/
def replaceFrom (old new : List Char) : Option Nat → Nat → List Char → List Char
  | _, _, [] => []
  | limit, skip + 1, _ :: cs => replaceFrom old new limit skip cs
  | limit, 0, c :: cs =>
    if limit ≠ some 0 ∧ old.isPrefixOf (c :: cs) = true then
      new ++ replaceFrom old new (limit.map (fun n => n - 1)) (old.length - 1) cs
    else c :: replaceFrom old new limit 0 cs

/-- An item of a compiled regular expression, for the part of the syntax that is
embedded here. -/
inductive ReItem where
  /-- A character that stands for itself. -/
  | lit (c : Char)
  /-- The dot: any character but a newline. -/
  | any
  /-- The class `[^\/]` under a greedy star, inside a capture group or not. -/
  | noSlash (capture : Bool)
deriving DecidableEq, Repr

/-- Characters with a meaning of their own in the syntax of the `regexp` package. -/
def reMeta : List Char := "\\.+*?()|[]{}^$".toList

/-- The body of a regular expression up to its closing `$`, read from the left: the two
texts that the constructor inserts are read as a star over `[^\/]`, captured or not; a
dot is read as any character; a character without a meaning of its own stands for
itself.  Any other use of a character of `reMeta` is outside the embedded part of the
syntax: `none`. -/
def compileFrom : Nat → List Char → Option (List ReItem)
  | _, [] => none
  | skip + 1, _ :: cs => compileFrom skip cs
  | 0, c :: cs =>
    if c = '$' ∧ cs = [] then some []
    else if regexpWildcardSubmatch.isPrefixOf (c :: cs) then
      (compileFrom (regexpWildcardSubmatch.length - 1) cs).map (fun r => ReItem.noSlash true :: r)
    else if regexpWildcard.isPrefixOf (c :: cs) then
      (compileFrom (regexpWildcard.length - 1) cs).map (fun r => ReItem.noSlash false :: r)
    else if c = '.' then (compileFrom 0 cs).map (fun r => ReItem.any :: r)
    else if c ∈ reMeta then none
    else (compileFrom 0 cs).map (fun r => ReItem.lit c :: r)

/-- Function `regexp.Compile` on a source of the form `^body$`, for the embedded part of
the syntax (`none` outside it). -/
def regexpCompile (src : List Char) : Option (List ReItem) :=
  match src with
  | '^' :: body => compileFrom 0 body
  | _ => none

/-- A greedy star over `[^\/]`: take characters other than `/` as long as possible and
give them back one by one until the continuation `k` matches.  `acc` is the text taken
so far; it is recorded as a submatch when `capture` is set. -/
def starNoSlash (k : List Char → Option (List (List Char))) (capture : Bool) :
    List Char → List Char → Option (List (List Char))
  | acc, [] => (k []).map (fun caps => if capture then acc :: caps else caps)
  | acc, x :: xs =>
    if x ≠ '/' then
      match starNoSlash k capture (acc ++ [x]) xs with
      | some r => some r
      | none => (k (x :: xs)).map (fun caps => if capture then acc :: caps else caps)
    else (k (x :: xs)).map (fun caps => if capture then acc :: caps else caps)

/-- Anchored match of the items against the whole text, with the preference order of the
`regexp` package (leftmost, greedy): the submatches in the order of their groups, or
`none` when the text does not match. -/
def matchItems : List ReItem → List Char → Option (List (List Char))
  | [], s => if s = [] then some [] else none
  | ReItem.lit c :: items, s =>
    match s with
    | x :: xs => if x = c then matchItems items xs else none
    | [] => none
  | ReItem.any :: items, s =>
    match s with
    | x :: xs => if x ≠ '\n' then matchItems items xs else none
    | [] => none
  | ReItem.noSlash capture :: items, s => starNoSlash (matchItems items) capture [] s

/-- What `NewContainerIDFetcher` returns. -/
inductive FetcherRes where
  /-- A finder holding the compiled expression, and a `nil` error. -/
  | finder (re : List ReItem)
  /-- Error "pattern %q must contain the container id token %q exactly once". -/
  | errTokenCount
  /-- The expression uses syntax of the `regexp` package that is not embedded here. -/
  | notEmbedded
deriving DecidableEq, Repr

/-- Function `NewContainerIDFetcher`: check the count of the id token, replace every
wildcard token, replace the id token once, anchor, compile. -/
def NewContainerIDFetcher (pattern : String) : FetcherRes :=
  if countFrom ContainerIDToken 0 pattern.toList ≠ 1 then FetcherRes.errTokenCount
  else
    let p1 := replaceFrom WildcardToken regexpWildcard none 0 pattern.toList
    let p2 := replaceFrom ContainerIDToken regexpWildcardSubmatch (some 1) 0 p1
    let p3 := "^".toList ++ p2 ++ "$".toList
    match regexpCompile p3 with
    | some re => FetcherRes.finder re
    | none => FetcherRes.notEmbedded

/-- Method `FindContainerID`: `("", false)` when `FindSubmatch` finds nothing, otherwise
the first submatch and `true`; `none` is the panic of `matches[submatchIndex]` on an
expression without a group. -/
def FindContainerID (re : List ReItem) (cgroup : String) : Option (String × Bool) :=
  match matchItems re cgroup.toList with
  | none => some ("", false)
  | some [] => none
  | some (m :: _) => some (String.mk m, true)

/-- The finder applied to a cgroup, from the pattern on: `none` when no finder was
returned or the lookup panicked. -/
def findWithPattern (pattern cgroup : String) : Option (String × Bool) :=
  match NewContainerIDFetcher pattern with
  | FetcherRes.finder re => FindContainerID re cgroup
  | _ => none

/-- The number of positions of a text at which `sub` occurs. -/
def occurrences (sub : List Char) : List Char → Nat
  | [] => 0
  | c :: cs => (if sub.isPrefixOf (c :: cs) then 1 else 0) + occurrences sub cs

/-- A pattern read in the simplified language that the documentation of
`NewContainerIDFetcher` describes: `<id>` is the container id, `*` is a wildcard, and
every other character is a literal that matches only itself. -/
def simpleItemsFrom : Nat → List Char → List ReItem
  | _, [] => []
  | skip + 1, _ :: cs => simpleItemsFrom skip cs
  | 0, c :: cs =>
    if ContainerIDToken.isPrefixOf (c :: cs) then
      ReItem.noSlash true :: simpleItemsFrom (ContainerIDToken.length - 1) cs
    else if c = '*' then ReItem.noSlash false :: simpleItemsFrom 0 cs
    else ReItem.lit c :: simpleItemsFrom 0 cs

/-- The lookup that the documentation describes: the whole cgroup is matched against the
pattern read in the simplified language, wildcards and the id matching runs of
characters other than `/`; the result is the text of the id and `true`, or `("", false)`. -/
def simpleLanguageFind (pattern cgroup : String) : String × Bool :=
  match matchItems (simpleItemsFrom 0 pattern.toList) cgroup.toList with
  | some (m :: _) => (String.mk m, true)
  | _ => ("", false)

/-! ## Theorems: drain coordinator -/

theorem Wait_fst (n : waitGroup) (env : WaitEnv) :
    (n.Wait env).1 = { n with isDraining := true } := by
  unfold waitGroup.Wait
  dsimp only
  split <;> rfl

theorem wgRun_of_draining (ops : List WgOp) :
    ∀ n : waitGroup, n.isDraining = true → ∀ e ∈ wgRun n ops,
      e.before.isDraining = true ∧ e.after.isDraining = true ∧
        (e.op.isInc = true → e.res = WgRes.ret (some WgErr.draining) ∧ e.after = e.before) := by
  induction ops with
  | nil => intro n _ e he; simp [wgRun] at he
  | cons op ops ih =>
    intro n hn e he
    cases op with
    | inc =>
      have hinc : n.Inc = some (n, some WgErr.draining) := by simp [waitGroup.Inc, hn]
      simp only [wgRun, hinc, List.mem_cons] at he
      rcases he with rfl | he
      · simp [hn]
      · exact ih n hn e he
    | done =>
      simp only [wgRun] at he
      cases hd : n.Done with
      | none =>
        simp only [hd, List.mem_singleton] at he
        subst he
        simp [hn, WgOp.isInc]
      | some n1 =>
        have hn1 : n1.isDraining = true := by
          unfold waitGroup.Done at hd
          split at hd
          · cases hd
          · cases hd; exact hn
        simp only [hd, List.mem_cons] at he
        rcases he with rfl | he
        · simp [hn, hn1, WgOp.isInc]
        · exact ih n1 hn1 e he
    | wait env =>
      simp only [wgRun, List.mem_cons] at he
      have hw : (n.Wait env).1.isDraining = true := by rw [Wait_fst]
      rcases he with rfl | he
      · simp [hn, hw, WgOp.isInc]
      · exact ih _ hw e he

theorem wgRun_drop (pre rest : List WgOp) :
    ∀ n : waitGroup, (wgRun n (pre ++ rest)).drop pre.length = [] ∨
      ∃ n1 : waitGroup, (wgRun n (pre ++ rest)).drop pre.length = wgRun n1 rest := by
  induction pre with
  | nil => intro n; exact Or.inr ⟨n, by simp⟩
  | cons op pre ih =>
    intro n
    cases op with
    | inc =>
      cases hi : n.Inc with
      | none => left; simp [wgRun, hi]
      | some r => simpa [wgRun, hi] using ih r.1
    | done =>
      cases hd : n.Done with
      | none => left; simp [wgRun, hd]
      | some n1 => simpa [wgRun, hd] using ih n1
    | wait env => simpa [wgRun] using ih (n.Wait env).1

theorem selectCase_done (d c : Option Nat) (r : Nat)
    (h : (strictlyBefore d (some drainTimeout) && strictlyBefore d c) = true) :
    selectCase d c r = WaitCase.done := by
  unfold selectCase readyCases selectWakes readyAt
  generalize drainTimeout = T at h ⊢
  rcases d with _ | x <;> rcases c with _ | y <;> simp [strictlyBefore] at h
  · have h1 : min x T = x := by omega
    have h2 : (T == x) = false := by simp; omega
    simp [List.filter, h1, h2, Nat.mod_one]
  · have h1 : min y (min x T) = x := by omega
    have h2 : (T == x) = false := by simp; omega
    have h3 : (y == x) = false := by simp; omega
    simp [List.filter, h1, h2, h3, Nat.mod_one]

theorem selectCase_timeout (d c : Option Nat) (r : Nat)
    (h : (strictlyBefore (some drainTimeout) d && strictlyBefore (some drainTimeout) c) = true) :
    selectCase d c r = WaitCase.timeout := by
  unfold selectCase readyCases selectWakes readyAt
  generalize drainTimeout = T at h ⊢
  rcases d with _ | x <;> rcases c with _ | y <;> simp [strictlyBefore] at h
  · simp [List.filter]
  · have h1 : min y T = T := by omega
    have h3 : (y == T) = false := by simp; omega
    simp [List.filter, h1, h3, Nat.mod_one]
  · have h1 : min x T = T := by omega
    have h3 : (x == T) = false := by simp; omega
    simp [List.filter, h1, h3, Nat.mod_one]
  · have h1 : min y (min x T) = T := by omega
    have h2 : (x == T) = false := by simp; omega
    have h3 : (y == T) = false := by simp; omega
    simp [List.filter, h1, h2, h3, Nat.mod_one]

theorem selectCase_ctxDone (d c : Option Nat) (r : Nat)
    (h : (strictlyBefore c d && strictlyBefore c (some drainTimeout)) = true) :
    selectCase d c r = WaitCase.ctxDone := by
  unfold selectCase readyCases selectWakes readyAt
  generalize drainTimeout = T at h ⊢
  rcases d with _ | x <;> rcases c with _ | y <;> simp [strictlyBefore] at h
  · have h1 : min y T = y := by omega
    have h3 : (T == y) = false := by simp; omega
    simp [List.filter, h1, h3, Nat.mod_one]
  · have h1 : min y (min x T) = y := by omega
    have h2 : (x == y) = false := by simp; omega
    have h3 : (T == y) = false := by simp; omega
    simp [List.filter, h1, h2, h3, Nat.mod_one]

theorem selectCase_mem (d c : Option Nat) (r : Nat) :
    readyAt d c (selectCase d c r) = some (selectWakes d c) := by
  have hne : readyCases d c ≠ [] := by
    have : WaitCase.done ∈ readyCases d c ∨ WaitCase.timeout ∈ readyCases d c ∨
        WaitCase.ctxDone ∈ readyCases d c := by
      unfold readyCases selectWakes readyAt
      generalize drainTimeout = T
      rcases d with _ | x <;> rcases c with _ | y <;> simp <;> omega
    intro h0
    rw [h0] at this
    simp at this
  have hlt : r % (readyCases d c).length < (readyCases d c).length :=
    Nat.mod_lt _ (List.length_pos.mpr hne)
  have hmem : selectCase d c r ∈ readyCases d c := by
    unfold selectCase
    simp only
    rw [List.getD_eq_getElem _ _ hlt]
    exact List.getElem_mem _
  unfold readyCases at hmem
  simpa using (List.mem_filter.mp hmem).2

/-- C1: in every sequence of `Inc`, `Done` and `Wait` calls, from the call of `Wait`
on (whatever that `Wait` returns) every executed call leaves `isDraining` set, and
every `Inc` after it returns the draining error and leaves the state, hence the
holder count, unchanged. -/
theorem draining_is_permanent (n : waitGroup) (pre post : List WgOp) (env : WaitEnv) :
    ∀ e ∈ (wgRun n (pre ++ WgOp.wait env :: post)).drop pre.length,
      e.after.isDraining = true ∧
        (e.op.isInc = true →
          e.before.isDraining = true ∧ e.res = WgRes.ret (some WgErr.draining) ∧
            e.after = e.before) := by
  intro e he
  rcases wgRun_drop pre (WgOp.wait env :: post) n with h | ⟨n1, h⟩
  · rw [h] at he; simp at he
  · rw [h] at he
    simp only [wgRun, List.mem_cons] at he
    have hw : (n1.Wait env).1.isDraining = true := by rw [Wait_fst]
    rcases he with rfl | he
    · simp [hw, WgOp.isInc]
    · obtain ⟨h1, h2, h3⟩ := wgRun_of_draining post _ hw e he
      exact ⟨h2, fun hi => ⟨h1, h3 hi⟩⟩

/-- C1 at a concrete run: `Inc`, then a `Wait` that times out with the holder still
registered, then `Inc` and `Done`: the `Inc` after the `Wait` is refused and changes
nothing. -/
theorem draining_is_permanent_witness :
    (WgEvent.mk WgOp.inc { wg := 1, isDraining := true } { wg := 1, isDraining := true }
        (WgRes.ret (some WgErr.draining))) ∈
      (wgRun waitGroup.fresh
        ([WgOp.inc] ++
          WgOp.wait { holdersDoneAt := none, helperDelay := 0, ctxDoneAt := none,
                      ctxErr := CtxErr.canceled, rand := 0 } :: [WgOp.inc, WgOp.done])).drop 1 ∧
    (WgEvent.mk WgOp.inc { wg := 1, isDraining := true } { wg := 1, isDraining := true }
        (WgRes.ret (some WgErr.draining))).after.isDraining = true :=
  ⟨by decide,
    (draining_is_permanent waitGroup.fresh [WgOp.inc] [WgOp.inc, WgOp.done]
      { holdersDoneAt := none, helperDelay := 0, ctxDoneAt := none, ctxErr := CtxErr.canceled,
        rand := 0 }
      (WgEvent.mk WgOp.inc { wg := 1, isDraining := true } { wg := 1, isDraining := true }
        (WgRes.ret (some WgErr.draining))) (by decide)).1⟩

theorem Wait_snd_none (n : waitGroup) (env : WaitEnv) :
    (n.Wait env).2 = none ↔ selectCase (doneClosedAt n env) env.ctxDoneAt env.rand = WaitCase.done := by
  unfold waitGroup.Wait
  dsimp only
  have hd : doneClosedAt { n with isDraining := true } env = doneClosedAt n env := rfl
  rw [hd]
  cases selectCase (doneClosedAt n env) env.ctxDoneAt env.rand <;> simp

theorem Wait_snd_timedOut (n : waitGroup) (env : WaitEnv) :
    (n.Wait env).2 = some WgErr.timedOut ↔
      selectCase (doneClosedAt n env) env.ctxDoneAt env.rand = WaitCase.timeout := by
  unfold waitGroup.Wait
  dsimp only
  have hd : doneClosedAt { n with isDraining := true } env = doneClosedAt n env := rfl
  rw [hd]
  cases selectCase (doneClosedAt n env) env.ctxDoneAt env.rand <;> simp

theorem Wait_snd_ctx (n : waitGroup) (env : WaitEnv) :
    (n.Wait env).2 = some (WgErr.ctx env.ctxErr) ↔
      selectCase (doneClosedAt n env) env.ctxDoneAt env.rand = WaitCase.ctxDone := by
  unfold waitGroup.Wait
  dsimp only
  have hd : doneClosedAt { n with isDraining := true } env = doneClosedAt n env := rfl
  rw [hd]
  cases selectCase (doneClosedAt n env) env.ctxDoneAt env.rand <;> simp

theorem Wait_nil_of_drainedFirst (n : waitGroup) (env : WaitEnv)
    (h : drainedFirst n env = true) : (n.Wait env).2 = none := by
  rw [Wait_snd_none]
  exact selectCase_done _ _ _ h

theorem selectWakes_le (d c : Option Nat) :
    selectWakes d c ≤ drainTimeout ∧ (∀ x, d = some x → selectWakes d c ≤ x) ∧
      (∀ y, c = some y → selectWakes d c ≤ y) := by
  unfold selectWakes
  generalize drainTimeout = T
  rcases d with _ | x <;> rcases c with _ | y <;> simp

/-- C9 fails as stated: one holder is outstanding and calls `Done` 3 ns after the
`select` is entered, the helper goroutine needs 10 ns more to close `done`, and the
context is cancelled after 9 ns: the count reaches zero strictly before the timeout and
the cancellation, yet `Wait` returns `ctx.Err()`.  And with no holder at all and a context
cancelled before the call, the count is zero no later than the cancellation, yet `Wait`
returns `ctx.Err()`, `done` being closed only 1 ns after the `select` is entered. -/
theorem count_zero_first_yet_cancelled :
    countZeroFirst { wg := 1, isDraining := false }
        { holdersDoneAt := some 3, helperDelay := 10, ctxDoneAt := some 9,
          ctxErr := CtxErr.canceled, rand := 0 } = true ∧
      (waitGroup.Wait { wg := 1, isDraining := false }
        { holdersDoneAt := some 3, helperDelay := 10, ctxDoneAt := some 9,
          ctxErr := CtxErr.canceled, rand := 0 }).2 = some (WgErr.ctx CtxErr.canceled) ∧
      notAfter
        (zeroAt waitGroup.fresh
          { holdersDoneAt := none, helperDelay := 1, ctxDoneAt := some 0,
            ctxErr := CtxErr.canceled, rand := 0 })
        (some 0) = true ∧
      (waitGroup.fresh.Wait
        { holdersDoneAt := none, helperDelay := 1, ctxDoneAt := some 0,
          ctxErr := CtxErr.canceled, rand := 0 }).2 = some (WgErr.ctx CtxErr.canceled) := by
  refine ⟨?_, ?_, ?_, ?_⟩ <;> decide

/-- C9 as amended: the outcome of `Wait` is decided by the instant at which the helper
goroutine has closed `done`, which comes `helperDelay` after the count has reached zero.
`Wait` returns `nil` when `done` is closed strictly before the timer and the
cancellation, the timeout error when the 5 second timer is strictly first, and
`ctx.Err()` when the cancellation is strictly first.  Conversely each result comes from
a case that was ready no later than the other two: a `nil` result means that `done` was
closed, the count having reached zero before, no later than the timer and the
cancellation; so when one of the three is strictly first, `nil` is returned exactly when
that one is the closing of `done`, and when two are ready together either may be taken.
The timeout error differs from every context error, as a value and by its message. -/
theorem wait_outcome (n : waitGroup) (env : WaitEnv) :
    (drainedFirst n env = true → (n.Wait env).2 = none) ∧
    (timeoutFirst n env = true → (n.Wait env).2 = some WgErr.timedOut) ∧
    (cancelFirst n env = true → (n.Wait env).2 = some (WgErr.ctx env.ctxErr)) ∧
    ((n.Wait env).2 = none →
      notAfter (doneClosedAt n env) (some drainTimeout) = true ∧
        notAfter (doneClosedAt n env) env.ctxDoneAt = true ∧
        notAfter (zeroAt n env) (doneClosedAt n env) = true) ∧
    ((n.Wait env).2 = some WgErr.timedOut →
      (notAfter (some drainTimeout) (doneClosedAt n env) = true ∨ doneClosedAt n env = none) ∧
        notAfter (some drainTimeout) env.ctxDoneAt = true) ∧
    ((n.Wait env).2 = some (WgErr.ctx env.ctxErr) →
      (notAfter env.ctxDoneAt (doneClosedAt n env) = true ∨ doneClosedAt n env = none) ∧
        notAfter env.ctxDoneAt (some drainTimeout) = true) ∧
    ((n.Wait env).2 = none ∨ (n.Wait env).2 = some WgErr.timedOut ∨
      (n.Wait env).2 = some (WgErr.ctx env.ctxErr)) ∧
    ((drainedFirst n env || timeoutFirst n env || cancelFirst n env) = true →
      ((n.Wait env).2 = none ↔ drainedFirst n env = true)) ∧
    (∀ e : CtxErr, WgErr.timedOut ≠ WgErr.ctx e ∧ WgErr.timedOut.Error ≠ (WgErr.ctx e).Error) := by
  have h1 : drainedFirst n env = true → (n.Wait env).2 = none :=
    Wait_nil_of_drainedFirst n env
  have h2 : timeoutFirst n env = true → (n.Wait env).2 = some WgErr.timedOut := by
    intro h
    rw [Wait_snd_timedOut]
    exact selectCase_timeout _ _ _ h
  have h3 : cancelFirst n env = true → (n.Wait env).2 = some (WgErr.ctx env.ctxErr) := by
    intro h
    rw [Wait_snd_ctx]
    exact selectCase_ctxDone _ _ _ h
  have hm := selectCase_mem (doneClosedAt n env) env.ctxDoneAt env.rand
  obtain ⟨hwT, hwd, hwc⟩ := selectWakes_le (doneClosedAt n env) env.ctxDoneAt
  refine ⟨h1, h2, h3, ?_, ?_, ?_, ?_, ?_, ?_⟩
  · intro h
    rw [Wait_snd_none] at h
    rw [h] at hm
    simp only [readyAt] at hm
    have hz : notAfter (zeroAt n env) (doneClosedAt n env) = true := by
      unfold doneClosedAt at hm ⊢
      rcases hzz : zeroAt n env with _ | z
      · rw [hzz] at hm; simp at hm
      · simp [notAfter]
    refine ⟨?_, ?_, hz⟩
    · rw [hm]
      simpa [notAfter] using hwT
    · rw [hm]
      rcases hc : env.ctxDoneAt with _ | y
      · simp [notAfter]
      · have hy := hwc y hc
        rw [hc] at hy
        simpa [notAfter] using hy
  · intro h
    rw [Wait_snd_timedOut] at h
    rw [h] at hm
    simp only [readyAt] at hm
    have hw : drainTimeout = selectWakes (doneClosedAt n env) env.ctxDoneAt :=
      Option.some.inj hm
    constructor
    · rcases hdd : doneClosedAt n env with _ | x
      · exact Or.inr rfl
      · left
        have := hwd x hdd
        rw [← hw] at this
        simpa [notAfter] using this
    · rcases hc : env.ctxDoneAt with _ | y
      · simp [notAfter]
      · have := hwc y hc
        rw [← hw] at this
        simpa [notAfter] using this
  · intro h
    rw [Wait_snd_ctx] at h
    rw [h] at hm
    simp only [readyAt] at hm
    rw [hm]
    constructor
    · rcases hdd : doneClosedAt n env with _ | x
      · exact Or.inr rfl
      · left
        have hx := hwd x hdd
        rw [hdd] at hx
        simpa [notAfter] using hx
    · simpa [notAfter] using hwT
  · rcases hs : selectCase (doneClosedAt n env) env.ctxDoneAt env.rand with _ | _ | _
    · exact Or.inl ((Wait_snd_none n env).mpr hs)
    · exact Or.inr (Or.inl ((Wait_snd_timedOut n env).mpr hs))
    · exact Or.inr (Or.inr ((Wait_snd_ctx n env).mpr hs))
  · intro h
    constructor
    · intro hr
      by_contra hnd
      simp only [Bool.or_eq_true] at h
      rcases h with (h | h) | h
      · exact hnd h
      · rw [h2 h] at hr; cases hr
      · rw [h3 h] at hr; cases hr
    · exact h1
  · intro e
    constructor
    · intro h; cases h
    · cases e <;> decide

/-- C9 as amended, at one outstanding holder: it calls `Done` after 3 ns and `done` is
closed 2 ns later, before a cancellation at 9 ns; it calls `Done` only after 7 s; it
never does and the context expires after 2 ns. -/
theorem wait_outcome_witness :
    (waitGroup.Wait { wg := 1, isDraining := false }
        { holdersDoneAt := some 3, helperDelay := 2, ctxDoneAt := some 9,
          ctxErr := CtxErr.canceled, rand := 0 }).2 = none ∧
    (waitGroup.Wait { wg := 1, isDraining := false }
        { holdersDoneAt := some 7000000000, helperDelay := 2, ctxDoneAt := none,
          ctxErr := CtxErr.canceled, rand := 0 }).2 = some WgErr.timedOut ∧
    (waitGroup.Wait { wg := 1, isDraining := false }
        { holdersDoneAt := none, helperDelay := 2, ctxDoneAt := some 2,
          ctxErr := CtxErr.deadlineExceeded, rand := 0 }).2
      = some (WgErr.ctx CtxErr.deadlineExceeded) :=
  ⟨(wait_outcome _ _).1 (by decide), (wait_outcome _ _).2.1 (by decide),
    (wait_outcome _ _).2.2.1 (by decide)⟩

/-- C2: for every cache state `c`, every bundle pointer `b` and every positive TTL, `Set(b)`
at clock reading `t` stores `b` with `expiresAt = t + ttl`, whatever was stored, and a
`Get` at a clock reading `t2` with `t ≤ t2 < t + ttl` returns exactly `b`. -/
theorem set_then_get_within_ttl {β : Type} (c : bundleCache β) (b : Option β) (w w2 : Int)
    (_httl : 0 < c.ttl) (_h1 : c.timeNow w ≤ c.timeNow w2)
    (h2 : c.timeNow w2 < c.timeNow w + c.ttl) :
    (c.Set b w).expiresAt = c.timeNow w + c.ttl ∧ (c.Set b w).bundle = b ∧
      (c.Set b w).Get w2 = b := by
  refine ⟨rfl, rfl, ?_⟩
  unfold bundleCache.Get bundleCache.Set
  have : ¬ (c.timeNow w2 > c.timeNow w + c.ttl) := by omega
  simp only [this, if_false]

/-- C2 at a cache that holds an expired bundle `1`: `Set(2)` at reading 100 with the
default TTL, then `Get` half a second later. -/
theorem set_then_get_within_ttl_witness :
    (bundleCache.Set
        { ttl := defaultBundleCacheTTL, timeNow := id, bundle := some 1, expiresAt := 50 }
        (some 2) 100).Get 500000100 = some 2 :=
  (set_then_get_within_ttl
    { ttl := defaultBundleCacheTTL, timeNow := id, bundle := some 1, expiresAt := 50 }
    (some 2) 100 500000100 (by decide) (by decide) (by decide)).2.2

/-- C3 fails as stated: after `Set` at reading 5 on a new cache (TTL one second), a `Get`
at the reading that equals `expiresAt` returns the bundle, though that reading is not
strictly before the expiry. -/
theorem get_at_expiry_returns_bundle :
    ((newBundleCache Nat).Set (some 7) 5).expiresAt = 1000000005 ∧
      ((newBundleCache Nat).Set (some 7) 5).Get 1000000005 = some 7 ∧
      ¬ ((newBundleCache Nat).timeNow 1000000005 < ((newBundleCache Nat).Set (some 7) 5).expiresAt) := by
  decide

/-- C3 as amended: `Get` returns the stored bundle only if the clock reading is not after
the stored expiry: if `Get` returns a bundle then `now ≤ expiresAt`; when `now` equals
`expiresAt` exactly `Get` returns what is stored; and `Get` returns none whenever `now`
is after `expiresAt`. -/
theorem get_only_until_expiry {β : Type} (c : bundleCache β) (w : Int) :
    (∀ b : β, c.Get w = some b → c.timeNow w ≤ c.expiresAt ∧ c.bundle = some b) ∧
      (c.timeNow w = c.expiresAt → c.Get w = c.bundle) ∧
      (c.expiresAt < c.timeNow w → c.Get w = none) := by
  unfold bundleCache.Get
  refine ⟨?_, ?_, ?_⟩
  · intro b h
    split at h
    · cases h
    · exact ⟨by omega, h⟩
  · intro h
    have : ¬ (c.timeNow w > c.expiresAt) := by omega
    simp only [this, if_false]
  · intro h
    have : c.timeNow w > c.expiresAt := h
    simp only [this, if_true]

/-- C3 as amended, at a cache holding bundle `7` with expiry 10: a `Get` at reading 12
returns none and a `Get` at reading 10 returns the bundle. -/
theorem get_only_until_expiry_witness :
    (bundleCache.Get { ttl := 1, timeNow := id, bundle := some 7, expiresAt := 10 } 12
        = none) ∧
      (bundleCache.Get { ttl := 1, timeNow := id, bundle := some 7, expiresAt := 10 } 10
        = some 7) :=
  ⟨(get_only_until_expiry
      { ttl := 1, timeNow := id, bundle := some 7, expiresAt := 10 } 12).2.2 (by decide),
    (get_only_until_expiry
      { ttl := 1, timeNow := id, bundle := some 7, expiresAt := 10 } 10).2.1 (by decide)⟩

/-! ## Theorems: stream manager -/

theorem newStreamFrom_attempts (backoff : Nat → Nat) (addr : String) (script : List Attempt) :
    ∀ k : Nat, k ≤ (newStreamFrom backoff addr k script).attempts ∧
      (script ≠ [] → k + 1 ≤ (newStreamFrom backoff addr k script).attempts) := by
  induction script with
  | nil => intro k; simp [newStreamFrom]
  | cons a rest ih =>
    intro k
    unfold newStreamFrom
    cases connectOnce addr a with
    | ok h => simp
    | error e =>
      cases a.ctxDone with
      | some ce => simp
      | none =>
        have := (ih (k + 1)).1
        simp only [ne_eq, reduceCtorEq, not_false_eq_true, forall_const]
        omega

theorem newStreamFrom_error (backoff : Nat → Nat) (addr : String) (script : List Attempt)
    (e : CtxErr) :
    ∀ k : Nat, (newStreamFrom backoff addr k script).result = some (Except.error e) →
      ∃ a ∈ script, a.ctxDone = some e ∧ ∃ err, connectOnce addr a = Except.error err := by
  induction script with
  | nil => intro k h; simp [newStreamFrom] at h
  | cons a rest ih =>
    intro k h
    unfold newStreamFrom at h
    cases hc : connectOnce addr a with
    | ok m => simp [hc] at h
    | error err =>
      cases hx : a.ctxDone with
      | some ce =>
        simp only [hc, hx, Option.some.injEq, Except.error.injEq] at h
        exact ⟨a, List.mem_cons_self _ _, by rw [hx, h], err, hc⟩
      | none =>
        simp only [hc, hx] at h
        obtain ⟨a1, hm, h1, h2⟩ := ih (k + 1) h
        exact ⟨a1, List.mem_cons_of_mem _ hm, h1, h2⟩

theorem Start_error (c : streamManager) (backoff : Nat → Nat) (script : List Attempt)
    (e : CtxErr) (h : (c.Start backoff script).2.1 = StartRes.err e) :
    (c.Start backoff script).1 = c ∧
      (newStream backoff c.addr script).result = some (Except.error e) := by
  unfold streamManager.Start at h ⊢
  dsimp only at h ⊢
  rcases hr : (newStream backoff c.addr script).result with _ | (e1 | m)
  · simp [hr] at h
  · simp only [hr] at h ⊢
    simp only [StartRes.err.injEq] at h
    simp [h]
  · simp only [hr] at h ⊢
    cases hs : c.Chan.send m <;> simp [hs] at h

/-- C4 fails as stated: the first connect attempt fails at the dial, the backoff timer
fires, the second attempt succeeds: `Start` returns `nil` after two attempts, the handle
is on `Chan`, `true` was sent on the connectivity channel and the loop runs. -/
theorem start_retries_after_first_failure :
    (∃ err, connectOnce agentSock dialRefused = Except.error err) ∧
    ((newStreamManager agentSock).Start doubling [dialRefused, connects 1 2]).2.1
      = StartRes.ok ∧
    ((newStreamManager agentSock).Start doubling [dialRefused, connects 1 2]).2.2.attempts
      = 2 ∧
    ((newStreamManager agentSock).Start doubling [dialRefused, connects 1 2]).1
      = { Chan := { cap := 1, buf := [{ stream := 2, closer := 1 }], closed := false }
          addr := agentSock
          reconnectChan := { cap := 1, buf := [], closed := false }
          connectionChan := [true]
          loops := 1 } := by
  refine ⟨⟨_, rfl⟩, ?_, ?_, ?_⟩ <;> decide

/-- C4 as amended: when the first connect attempt fails, `Start` returns only if the
context is done during the backoff wait after it: it then returns `ctx.Err()` after that
single attempt, with the manager unchanged (no handle on `Chan`, nothing sent on the
connectivity channel, no background loop).  When instead the backoff timer fires,
`Start` does not return the failure: it goes on to a further attempt.  Whenever `Start`
returns an error, it is the `ctx.Err()` of a backoff wait after a failed attempt and the
manager is unchanged. -/
theorem start_after_failed_first_attempt (c : streamManager) (backoff : Nat → Nat)
    (a : Attempt) (rest : List Attempt) (err : AttemptErr)
    (hfail : connectOnce c.addr a = Except.error err) :
    (∀ e, a.ctxDone = some e →
      (c.Start backoff (a :: rest)).1 = c ∧
        (c.Start backoff (a :: rest)).2.1 = StartRes.err e ∧
        (c.Start backoff (a :: rest)).2.2.attempts = 1) ∧
    (a.ctxDone = none →
      (c.Start backoff (a :: rest)).2.1 = StartRes.retrying ∨
        2 ≤ (c.Start backoff (a :: rest)).2.2.attempts) ∧
    (∀ e, (c.Start backoff (a :: rest)).2.1 = StartRes.err e →
      (c.Start backoff (a :: rest)).1 = c ∧
        ∃ a1 ∈ a :: rest, a1.ctxDone = some e ∧ ∃ err1, connectOnce c.addr a1 = Except.error err1) := by
  refine ⟨?_, ?_, ?_⟩
  · intro e he
    simp [streamManager.Start, newStream, newStreamFrom, hfail, he]
  · intro hn
    have hrun : (c.Start backoff (a :: rest)).2.2 = newStream backoff c.addr (a :: rest) := by
      unfold streamManager.Start
      dsimp only
      rcases (newStream backoff c.addr (a :: rest)).result with _ | (e1 | m)
      · rfl
      · rfl
      · dsimp only
        cases c.Chan.send m <;> rfl
    cases rest with
    | nil =>
      left
      simp [streamManager.Start, newStream, newStreamFrom, hfail, hn]
    | cons b rest1 =>
      right
      rw [hrun]
      have h2 := (newStreamFrom_attempts backoff c.addr (b :: rest1) 1).2 (by simp)
      simp only [newStream, newStreamFrom, hfail, hn]
      exact h2
  · intro e he
    obtain ⟨h1, h2⟩ := Start_error c backoff _ e he
    exact ⟨h1, newStreamFrom_error backoff c.addr _ e 0 h2⟩

/-- C4 as amended, at a refused dial with the context cancelled during the first wait. -/
theorem start_after_failed_first_attempt_witness :
    ((newStreamManager agentSock).Start doubling [dialRefusedThenCancelled, connects 1 2]).1
        = newStreamManager agentSock ∧
      ((newStreamManager agentSock).Start doubling [dialRefusedThenCancelled, connects 1 2]).2.1
        = StartRes.err CtxErr.canceled ∧
      ((newStreamManager agentSock).Start doubling
        [dialRefusedThenCancelled, connects 1 2]).2.2.attempts = 1 :=
  (start_after_failed_first_attempt (newStreamManager agentSock) doubling
    dialRefusedThenCancelled [connects 1 2]
    (AttemptErr.conn (ConnErr.dialFailed agentSock "connection refused")) rfl).1
    CtxErr.canceled rfl

theorem connectOnce_notUnix (addr : String) (h : HasPrefix addr "unix://" = false)
    (a : Attempt) : connectOnce addr a = Except.error (AttemptErr.conn (ConnErr.notUnix addr)) := by
  simp [connectOnce, newConn, h]

theorem newStreamFrom_notUnix (backoff : Nat → Nat) (addr : String)
    (h : HasPrefix addr "unix://" = false) (script : List Attempt) :
    ∀ k : Nat,
      (∀ m, (newStreamFrom backoff addr k script).result ≠ some (Except.ok m)) ∧
      (∀ err ∈ (newStreamFrom backoff addr k script).errors,
        err = AttemptErr.conn (ConnErr.notUnix addr)) ∧
      (newStreamFrom backoff addr k script).errors.length + k
        = (newStreamFrom backoff addr k script).attempts ∧
      (newStreamFrom backoff addr k script).timers.length
        = (newStreamFrom backoff addr k script).errors.length ∧
      ((∀ a ∈ script, a.ctxDone = none) →
        (newStreamFrom backoff addr k script).result = none ∧
          (newStreamFrom backoff addr k script).attempts = k + script.length) := by
  induction script with
  | nil => intro k; simp [newStreamFrom]
  | cons a rest ih =>
    intro k
    unfold newStreamFrom
    rw [connectOnce_notUnix addr h a]
    cases hx : a.ctxDone with
    | some ce => simp [hx]; omega
    | none =>
      obtain ⟨h1, h2, h3, h4, h5⟩ := ih (k + 1)
      refine ⟨?_, ?_, ?_, ?_, ?_⟩
      · exact h1
      · intro err herr
        simp only [List.mem_cons] at herr
        rcases herr with rfl | herr
        · rfl
        · exact h2 err herr
      · simp only [List.length_cons]; omega
      · simp only [List.length_cons]; omega
      · intro hall
        have hr := h5 (fun b hb => hall b (List.mem_cons_of_mem _ hb))
        simp only [List.length_cons]
        exact ⟨hr.1, by omega⟩

/-- C5 fails as stated: with the address `tcp://127.0.0.1:8081` every attempt fails with
the address error in `newConn`, yet `newStream` waits out the first backoff interval,
makes a second attempt, and returns the context's error (here the context is cancelled
during the second wait), not the address error. -/
theorem non_unix_address_enters_retry_loop :
    HasPrefix tcpAddr "unix://" = false ∧
    (newStream doubling tcpAddr [connects 1 2, dialRefusedThenCancelled]).attempts = 2 ∧
    (newStream doubling tcpAddr [connects 1 2, dialRefusedThenCancelled]).errors
      = [AttemptErr.conn (ConnErr.notUnix tcpAddr), AttemptErr.conn (ConnErr.notUnix tcpAddr)] ∧
    (newStream doubling tcpAddr [connects 1 2, dialRefusedThenCancelled]).timers
      = [1000000000, 2000000000] ∧
    ((newStreamManager tcpAddr).Start doubling [connects 1 2, dialRefusedThenCancelled]).2.1
      = StartRes.err CtxErr.canceled := by
  refine ⟨?_, ?_, ?_, ?_, ?_⟩ <;> decide

/-- C5 as amended: for every address that does not start with `unix://`, `newConn` fails
with the address error whatever a dial would give; `newStream` never returns that error
and never a stream: every attempt fails with the address error, each is followed by a
backoff wait, and as long as the context is not done during a wait it keeps retrying;
the only error it can return is the `ctx.Err()` of a wait. -/
theorem non_unix_address_is_retried (addr : String) (h : HasPrefix addr "unix://" = false)
    (backoff : Nat → Nat) (script : List Attempt) :
    (∀ dial, newConn addr dial = Except.error (ConnErr.notUnix addr)) ∧
    (∀ m, (newStream backoff addr script).result ≠ some (Except.ok m)) ∧
    (∀ err ∈ (newStream backoff addr script).errors,
      err = AttemptErr.conn (ConnErr.notUnix addr)) ∧
    (newStream backoff addr script).errors.length = (newStream backoff addr script).attempts ∧
    (newStream backoff addr script).timers.length = (newStream backoff addr script).attempts ∧
    ((∀ a ∈ script, a.ctxDone = none) →
      (newStream backoff addr script).result = none ∧
        (newStream backoff addr script).attempts = script.length) ∧
    (∀ e, (newStream backoff addr script).result = some (Except.error e) →
      ∃ a ∈ script, a.ctxDone = some e) := by
  obtain ⟨h1, h2, h3, h4, h5⟩ := newStreamFrom_notUnix backoff addr h script 0
  refine ⟨?_, h1, h2, ?_, ?_, ?_, ?_⟩
  · intro dial; simp [newConn, h]
  · exact h3
  · unfold newStream; omega
  · intro hall
    have := h5 hall
    unfold newStream
    exact ⟨this.1, by omega⟩
  · intro e he
    obtain ⟨a, ha, hc, _⟩ := newStreamFrom_error backoff addr script e 0 he
    exact ⟨a, ha, hc⟩

/-- C5 as amended, at the TCP address with three attempts during which the context stays
live: `newStream` is still retrying after the three attempts and three waits. -/
theorem non_unix_address_is_retried_witness :
    (newStream doubling tcpAddr [connects 1 2, connects 3 4, dialRefused]).result = none ∧
      (newStream doubling tcpAddr [connects 1 2, connects 3 4, dialRefused]).attempts = 3 :=
  (non_unix_address_is_retried tcpAddr (by decide) doubling
    [connects 1 2, connects 3 4, dialRefused]).2.2.2.2.2.1 (by decide)

theorem newStream_cancelled_first (backoff : Nat → Nat) (addr : String) (a : Attempt)
    (rest : List Attempt) (err : AttemptErr) (e : CtxErr)
    (hfail : connectOnce addr a = Except.error err) (hctx : a.ctxDone = some e) :
    (newStream backoff addr (a :: rest)).result = some (Except.error e) := by
  simp [newStream, newStreamFrom, hfail, hctx]

theorem newStream_connects_first (backoff : Nat → Nat) (addr : String) (a : Attempt)
    (rest : List Attempt) (m : managedStream) (hconn : connectOnce addr a = Except.ok m) :
    (newStream backoff addr (a :: rest)).result = some (Except.ok m) := by
  simp [newStream, newStreamFrom, hconn]

/-- C6: the code leaves `Chan` open.  In a manager whose background loop takes a pending
reconnect signal, if the connect attempt fails and the context is done during the
backoff wait, the loop returns with `Chan` exactly as it was (in particular not closed)
and no handle delivered; only the `ctx.Done()` case of the loop's `select` closes
`Chan`. -/
theorem reconnect_cancelled_in_backoff_leaves_Chan_open (c : streamManager)
    (backoff : Nat → Nat) (a : Attempt) (rest : List Attempt) (err : AttemptErr) (e : CtxErr)
    (rc : GoChan Unit)
    (hsig : c.reconnectChan.recv = RecvRes.got () rc)
    (hfail : connectOnce c.addr a = Except.error err) (hctx : a.ctxDone = some e)
    (hopen : c.Chan.closed = false) :
    (c.loopStep backoff LoopWake.reconnect (a :: rest)).2.1 = LoopRes.exits ∧
      (c.loopStep backoff LoopWake.reconnect (a :: rest)).1.Chan = c.Chan ∧
      (c.loopStep backoff LoopWake.reconnect (a :: rest)).1.Chan.closed = false ∧
      (c.loopStep backoff LoopWake.reconnect (a :: rest)).1.loops = c.loops - 1 ∧
      (c.loopStep backoff LoopWake.ctxDone (a :: rest)).2.1 = LoopRes.exits ∧
      (c.loopStep backoff LoopWake.ctxDone (a :: rest)).1.Chan.closed = true := by
  have hr := newStream_cancelled_first backoff c.addr a rest err e hfail hctx
  refine ⟨?_, ?_, ?_, ?_, ?_, ?_⟩
  · simp [streamManager.loopStep, streamManager.sendConnectivity, streamManager.sendHandle, hsig, hr]
  · simp [streamManager.loopStep, streamManager.sendConnectivity, streamManager.sendHandle, hsig, hr]
  · simp [streamManager.loopStep, streamManager.sendConnectivity, streamManager.sendHandle, hsig, hr, hopen]
  · simp [streamManager.loopStep, streamManager.sendConnectivity, streamManager.sendHandle, hsig, hr]
  · simp [streamManager.loopStep, streamManager.sendConnectivity, streamManager.sendHandle, GoChan.close, hopen]
  · simp [streamManager.loopStep, streamManager.sendConnectivity, streamManager.sendHandle, GoChan.close, hopen]

/-- C6 at the failing input: the started manager with one reconnect signal pending, a
refused dial and a cancellation during the backoff wait: the loop exits and `Chan` is
not closed. -/
theorem reconnect_cancelled_in_backoff_leaves_Chan_open_witness :
    (startedWithSignal.loopStep doubling LoopWake.reconnect [dialRefusedThenCancelled]).2.1
        = LoopRes.exits ∧
      (startedWithSignal.loopStep doubling LoopWake.reconnect [dialRefusedThenCancelled]).1.Chan.closed
        = false :=
  have h := reconnect_cancelled_in_backoff_leaves_Chan_open startedWithSignal doubling
    dialRefusedThenCancelled [] (AttemptErr.conn (ConnErr.dialFailed agentSock "connection refused"))
    CtxErr.canceled { cap := 1, buf := [], closed := false } (by decide) rfl rfl (by decide)
  ⟨h.1, h.2.2.1⟩

/-- C7 fails as stated: on a new manager the first `Reconnect()` returns with one signal
pending; a second `Reconnect()` while that signal is pending does not return: its send
on the full `reconnectChan` blocks. -/
theorem second_reconnect_blocks :
    (newStreamManager agentSock).Reconnect
        = CallRes.returns
            { Chan := { cap := 1, buf := [], closed := false }
              addr := agentSock
              reconnectChan := { cap := 1, buf := [()], closed := false }
              connectionChan := []
              loops := 0 } ∧
      streamManager.Reconnect
          { Chan := { cap := 1, buf := [], closed := false }
            addr := agentSock
            reconnectChan := { cap := 1, buf := [()], closed := false }
            connectionChan := []
            loops := 0 }
        = CallRes.blocks := by
  constructor <;> decide

/-- C7 as amended: on a manager whose `reconnectChan` is as `newStreamManager` made it
(capacity 1, never closed): with no signal pending `Reconnect()` returns at once and
leaves exactly one pending signal, changing nothing else; with one signal pending
`Reconnect()` blocks, and once the background loop has received the pending signal the
send goes through and again leaves exactly one pending signal. -/
theorem reconnect_signal (c : streamManager) (hcap : c.reconnectChan.cap = 1)
    (hopen : c.reconnectChan.closed = false) :
    (c.reconnectChan.buf = [] →
      c.Reconnect = CallRes.returns { c with reconnectChan := { c.reconnectChan with buf := [()] } }) ∧
    (c.reconnectChan.buf = [()] →
      c.Reconnect = CallRes.blocks ∧
        c.reconnectChan.recv = RecvRes.got () { c.reconnectChan with buf := [] } ∧
        streamManager.Reconnect { c with reconnectChan := { c.reconnectChan with buf := [] } }
          = CallRes.returns { c with reconnectChan := { c.reconnectChan with buf := [()] } }) := by
  constructor
  · intro hb
    simp [streamManager.Reconnect, GoChan.send, hcap, hopen, hb]
  · intro hb
    refine ⟨?_, ?_, ?_⟩
    · simp [streamManager.Reconnect, GoChan.send, hcap, hopen, hb]
    · simp [GoChan.recv, hb]
    · simp [streamManager.Reconnect, GoChan.send, hcap, hopen]

/-- C7 as amended, at a new manager (no signal pending). -/
theorem reconnect_signal_witness :
    (newStreamManager agentSock).Reconnect
      = CallRes.returns
          { newStreamManager agentSock with
            reconnectChan := { (newStreamManager agentSock).reconnectChan with buf := [()] } } :=
  (reconnect_signal (newStreamManager agentSock) rfl rfl).1 rfl

/-- C8 fails as stated: the handle of `Start` (stream 2 on connection 1) is still unread
on `Chan` when a reconnect cycle connects again (stream 4 on connection 3): the loop's
send of the new handle blocks, `Chan` still holds the old handle, and the next read by
the consumer returns that superseded handle. -/
theorem new_handle_waits_behind_unread_one :
    (startedWithSignal.loopStep doubling LoopWake.reconnect [connects 3 4]).2.1
        = LoopRes.blocksOnChan ∧
      (startedWithSignal.loopStep doubling LoopWake.reconnect [connects 3 4]).1.Chan.buf
        = [{ stream := 2, closer := 1 }] ∧
      (startedWithSignal.loopStep doubling LoopWake.reconnect [connects 3 4]).1.Chan.recv
        = RecvRes.got { stream := 2, closer := 1 } { cap := 1, buf := [], closed := false } := by
  refine ⟨?_, ?_, ?_⟩ <;> decide

/-- C8 as amended: `Chan` is a first-in first-out buffer of capacity 1.  For a manager
whose loop takes a reconnect signal and connects, giving handle `new`: when `Chan` is
empty the handle is delivered without blocking and the next read returns it; when an
older handle `old` is still unread the delivery blocks with `Chan` unchanged, the next
read returns `old`, and after that read the delivery goes through and `Chan` holds
`new`. -/
theorem handle_delivery_is_fifo (c : streamManager) (backoff : Nat → Nat) (a : Attempt)
    (rest : List Attempt) (old new : managedStream) (rc : GoChan Unit)
    (hcap : c.Chan.cap = 1) (hopen : c.Chan.closed = false)
    (hsig : c.reconnectChan.recv = RecvRes.got () rc)
    (hconn : connectOnce c.addr a = Except.ok new) :
    (c.Chan.buf = [] →
      (c.loopStep backoff LoopWake.reconnect (a :: rest)).2.1 = LoopRes.continues ∧
        (c.loopStep backoff LoopWake.reconnect (a :: rest)).1.Chan.buf = [new] ∧
        (c.loopStep backoff LoopWake.reconnect (a :: rest)).1.Chan.recv
          = RecvRes.got new { c.Chan with buf := [] }) ∧
    (c.Chan.buf = [old] →
      (c.loopStep backoff LoopWake.reconnect (a :: rest)).2.1 = LoopRes.blocksOnChan ∧
        (c.loopStep backoff LoopWake.reconnect (a :: rest)).1.Chan = c.Chan ∧
        c.Chan.recv = RecvRes.got old { c.Chan with buf := [] } ∧
        (streamManager.loopStep { c with Chan := { c.Chan with buf := [] } } backoff
          LoopWake.reconnect (a :: rest)).2.1 = LoopRes.continues ∧
        (streamManager.loopStep { c with Chan := { c.Chan with buf := [] } } backoff
          LoopWake.reconnect (a :: rest)).1.Chan.buf = [new]) := by
  have hr := newStream_connects_first backoff c.addr a rest new hconn
  constructor
  · intro hb
    have hs : c.Chan.send new = SendRes.sent { c.Chan with buf := [new] } := by
      simp [GoChan.send, hcap, hopen, hb]
    have hc : (c.loopStep backoff LoopWake.reconnect (a :: rest)).1.Chan
        = { c.Chan with buf := [new] } := by
      simp [streamManager.loopStep, streamManager.sendConnectivity, streamManager.sendHandle, hsig, hr, hs]
    refine ⟨?_, ?_, ?_⟩
    · simp [streamManager.loopStep, streamManager.sendConnectivity, streamManager.sendHandle, hsig, hr, hs]
    · rw [hc]
    · rw [hc]; rfl
  · intro hb
    have hs : c.Chan.send new = SendRes.blocks := by
      simp [GoChan.send, hcap, hopen, hb]
    have hs2 : GoChan.send { c.Chan with buf := [] } new
        = SendRes.sent { c.Chan with buf := [new] } := by
      simp [GoChan.send, hcap, hopen]
    refine ⟨?_, ?_, ?_, ?_, ?_⟩
    · simp [streamManager.loopStep, streamManager.sendConnectivity, streamManager.sendHandle, hsig, hr, hs]
    · simp [streamManager.loopStep, streamManager.sendConnectivity, streamManager.sendHandle, hsig, hr, hs]
    · simp [GoChan.recv, hb]
    · simp [streamManager.loopStep, streamManager.sendConnectivity, streamManager.sendHandle, hsig, hr, hs2]
    · simp [streamManager.loopStep, streamManager.sendConnectivity, streamManager.sendHandle, hsig, hr, hs2]

/-- C8 as amended, at the started manager whose first handle was already read: the new
handle is delivered at once. -/
theorem handle_delivery_is_fifo_witness :
    (streamManager.loopStep
        { startedWithSignal with Chan := { cap := 1, buf := [], closed := false } } doubling
        LoopWake.reconnect [connects 3 4]).1.Chan.buf = [{ stream := 4, closer := 3 }] :=
  ((handle_delivery_is_fifo
      { startedWithSignal with Chan := { cap := 1, buf := [], closed := false } } doubling
      (connects 3 4) [] { stream := 2, closer := 1 } { stream := 4, closer := 3 }
      { cap := 1, buf := [], closed := false } rfl rfl (by decide) rfl).1 rfl).2.1

/-! ## Theorems: bundle read cache, sequences of calls -/

theorem cacheRun_gets_expired {β : Type} (c : bundleCache β) (ws : List Int) :
    ∀ w : Int, c.expiresAt < c.timeNow w →
      List.Chain (fun a b => c.timeNow a ≤ c.timeNow b) w ws →
      cacheRun c ((w :: ws).map CacheOp.get) = (c, List.replicate (ws.length + 1) none) := by
  induction ws with
  | nil =>
    intro w hw _
    have : c.timeNow w > c.expiresAt := hw
    simp [cacheRun, bundleCache.Get, this]
  | cons w2 rest ih =>
    intro w hw hch
    rw [List.chain_cons] at hch
    have h2 : c.expiresAt < c.timeNow w2 := lt_of_lt_of_le hw hch.1
    have hrec := ih w2 h2 hch.2
    have : c.timeNow w > c.expiresAt := hw
    rw [List.map_cons, cacheRun, hrec]
    simp [bundleCache.Get, this, List.replicate_succ]

/-- C11: for every cache state and every clock reading after `expiresAt`, `Get` returns
none, and any number of consecutive `Get` calls at non-decreasing clock readings from
there on, with no `Set` in between, all return none and leave the cache state (stored
bundle and `expiresAt`) unchanged. -/
theorem get_after_expiry_stays_none {β : Type} (c : bundleCache β) (w : Int) (ws : List Int)
    (hexp : c.expiresAt < c.timeNow w)
    (hmono : List.Chain' (fun a b => c.timeNow a ≤ c.timeNow b) (w :: ws)) :
    c.Get w = none ∧
      (cacheRun c ((w :: ws).map CacheOp.get)).2 = List.replicate (ws.length + 1) none ∧
      (cacheRun c ((w :: ws).map CacheOp.get)).1 = c := by
  have h := cacheRun_gets_expired c ws w hexp hmono
  have hg : c.timeNow w > c.expiresAt := hexp
  refine ⟨by simp [bundleCache.Get, hg], ?_, ?_⟩
  · rw [h]
  · rw [h]

/-- C11 at a cache holding bundle `7` that expired at reading 10: three `Get` calls at
readings 11, 11 and 40. -/
theorem get_after_expiry_stays_none_witness :
    (cacheRun
        ({ ttl := defaultBundleCacheTTL, timeNow := id, bundle := some 7, expiresAt := 10 } :
          bundleCache Nat)
        ([11, 11, 40].map CacheOp.get)).2 = [none, none, none] :=
  (get_after_expiry_stays_none
    { ttl := defaultBundleCacheTTL, timeNow := id, bundle := some 7, expiresAt := 10 }
    11 [11, 40] (by decide) (by simp)).2.1

theorem cacheRun_ttl {β : Type} (ops : List (CacheOp β)) :
    ∀ c : bundleCache β, (cacheRun c ops).1.ttl = c.ttl ∧ (cacheRun c ops).1.timeNow = c.timeNow := by
  induction ops with
  | nil => intro c; simp [cacheRun]
  | cons op ops ih =>
    intro c
    cases op with
    | get w => simpa [cacheRun] using ih c
    | set b w => simpa [cacheRun, bundleCache.Set] using ih (c.Set b w)

theorem cacheRun_negative_ttl {β : Type} (ops : List (CacheOp β)) :
    ∀ (c : bundleCache β) (t : Int), c.ttl < 0 → (c.bundle = none ∨ c.expiresAt < t) →
      List.Chain (fun a b => a ≤ b) t (ops.map (fun op => c.timeNow op.wall)) →
      ∀ r ∈ (cacheRun c ops).2, r = none := by
  induction ops with
  | nil => intro c t _ _ _ r hr; simp [cacheRun] at hr
  | cons op ops ih =>
    intro c t httl hinv hch r hr
    rw [List.map_cons, List.chain_cons] at hch
    cases op with
    | get w =>
      simp only [CacheOp.wall] at hch
      simp only [cacheRun, List.mem_cons] at hr
      rcases hr with rfl | hr
      · unfold bundleCache.Get
        rcases hinv with hb | he
        · simp [hb]
        · have : c.timeNow w > c.expiresAt := lt_of_lt_of_le he hch.1
          simp [this]
      · refine ih c (c.timeNow w) httl ?_ hch.2 r hr
        rcases hinv with hb | he
        · exact Or.inl hb
        · exact Or.inr (lt_of_lt_of_le he hch.1)
    | set b w =>
      simp only [CacheOp.wall] at hch
      simp only [cacheRun] at hr
      refine ih (c.Set b w) (c.timeNow w) httl ?_ hch.2 r hr
      right
      show c.timeNow w + c.ttl < c.timeNow w
      omega

/-- C12 fails as stated: with `ttl = 0`, after `Set` at clock reading 5 a `Get` at the
same reading returns the bundle. -/
theorem zero_ttl_cache_hits :
    (cacheRun
        ({ ttl := 0, timeNow := id, bundle := none, expiresAt := 0 } : bundleCache Nat)
        [CacheOp.set (some 7) 5, CacheOp.get 5]).2 = [some 7] := by
  decide

/-- C12 as amended: a cache with a negative TTL that starts empty is an always-miss
cache: for every non-decreasing sequence of clock readings and every sequence of `Set`
and `Get` calls, every `Get` returns none; this covers the cache built by
`newNoopBundleCache`.  With `ttl = 0` a `Get` at the clock reading of the preceding `Set`
returns what was set. -/
theorem negative_ttl_always_misses {β : Type} (c : bundleCache β) (ops : List (CacheOp β))
    (hempty : c.bundle = none)
    (hmono : List.Chain' (fun a b => a ≤ b) (ops.map (fun op => c.timeNow op.wall))) :
    (c.ttl < 0 → ∀ r ∈ (cacheRun c ops).2, r = none) ∧
      (∀ ops1 : List (CacheOp β), ∀ r ∈ (cacheRun (newNoopBundleCache β) ops1).2, r = none) ∧
      (c.ttl = 0 → ∀ (b : Option β) (w : Int), (c.Set b w).Get w = b) := by
  refine ⟨?_, ?_, ?_⟩
  · intro httl
    cases ops with
    | nil => intro r hr; simp [cacheRun] at hr
    | cons op rest =>
      refine cacheRun_negative_ttl (op :: rest) c (c.timeNow op.wall) httl (Or.inl hempty) ?_
      rw [List.map_cons, List.chain_cons]
      exact ⟨le_refl _, hmono⟩
  · intro ops1
    cases ops1 with
    | nil => intro r hr; simp [cacheRun] at hr
    | cons op rest =>
      refine cacheRun_negative_ttl (op :: rest) (newNoopBundleCache β) 0 (by simp [newNoopBundleCache])
        (Or.inl rfl) ?_
      have hall : ∀ l : List (CacheOp β),
          List.Chain (fun a b : Int => a ≤ b) 0
            (l.map (fun op => (newNoopBundleCache β).timeNow op.wall)) := by
        intro l
        induction l with
        | nil => exact List.Chain.nil
        | cons x l ihl => exact List.Chain.cons (le_refl _) ihl
      exact hall _
  · intro h0 b w
    unfold bundleCache.Get bundleCache.Set
    simp [h0]

/-- C12 as amended, at a cache with a TTL of minus one nanosecond under the real clock:
`Get`, `Set` at reading 3, `Get` at 3, `Get` at 9. -/
theorem negative_ttl_always_misses_witness :
    (cacheRun
        ({ ttl := -1, timeNow := id, bundle := none, expiresAt := 0 } : bundleCache Nat)
        [CacheOp.get 1, CacheOp.set (some 7) 3, CacheOp.get 3, CacheOp.get 9]).2
      = List.replicate 3 none :=
  List.eq_replicate_iff.mpr
    ⟨rfl,
      (negative_ttl_always_misses
        ({ ttl := -1, timeNow := id, bundle := none, expiresAt := 0 } : bundleCache Nat)
        [CacheOp.get 1, CacheOp.set (some 7) 3, CacheOp.get 3, CacheOp.get 9] rfl
        (by simp [CacheOp.wall])).1 (by decide)⟩

/-! ## Theorems: connect with retry -/

theorem newStreamFrom_fails_then (backoff : Nat → Nat) (addr : String) (fails : List Attempt)
    (tail : List Attempt)
    (hfails : ∀ a ∈ fails, (∃ err, connectOnce addr a = Except.error err) ∧ a.ctxDone = none) :
    ∀ k : Nat,
      (newStreamFrom backoff addr k (fails ++ tail)).attempts
          = (newStreamFrom backoff addr (k + fails.length) tail).attempts ∧
        (newStreamFrom backoff addr k (fails ++ tail)).result
          = (newStreamFrom backoff addr (k + fails.length) tail).result ∧
        (newStreamFrom backoff addr k (fails ++ tail)).rest
          = (newStreamFrom backoff addr (k + fails.length) tail).rest ∧
        (newStreamFrom backoff addr k (fails ++ tail)).timers
          = (List.range fails.length).map (fun i => backoff (k + i)) ++
              (newStreamFrom backoff addr (k + fails.length) tail).timers ∧
        (newStreamFrom backoff addr k (fails ++ tail)).errors.length
          = fails.length + (newStreamFrom backoff addr (k + fails.length) tail).errors.length := by
  induction fails with
  | nil => intro k; simp
  | cons a rest ih =>
    intro k
    obtain ⟨⟨err, herr⟩, hctx⟩ := hfails a (List.mem_cons_self _ _)
    have hrest : ∀ b ∈ rest, (∃ err, connectOnce addr b = Except.error err) ∧ b.ctxDone = none :=
      fun b hb => hfails b (List.mem_cons_of_mem _ hb)
    obtain ⟨h1, h2, h3, h4, h5⟩ := ih hrest (k + 1)
    have e : k + 1 + rest.length = k + (a :: rest).length := by simp; omega
    rw [e] at h1 h2 h3 h4 h5
    simp only [List.cons_append, newStreamFrom, herr, hctx, List.append_eq]
    refine ⟨h1, h2, h3, ?_, ?_⟩
    · rw [h4, List.length_cons, List.range_succ_eq_map, List.map_cons, List.map_map]
      simp only [List.cons_append, Nat.add_zero, List.cons.injEq, true_and]
      congr 1
      apply List.map_congr_left
      intro i _
      simp only [Function.comp]
      congr 1
      omega
    · rw [List.length_cons, h5, List.length_cons]
      omega

/-- C13: for every `n`, if the first `n` connect attempts fail (in `newConn` or in
`newX509SVIDStream`) with the backoff timer firing after each, and attempt `n + 1`
succeeds with handle `h`, then `newStream` makes exactly `n + 1` attempts, arms exactly
`n` backoff timers, the values `0` to `n - 1` of the one backoff sequence in order, and
returns the stream and connection of attempt `n + 1` without error, leaving the rest of
the environment untouched. -/
theorem newStream_succeeds_after_failures (backoff : Nat → Nat) (addr : String)
    (fails : List Attempt) (a : Attempt) (rest : List Attempt) (h : managedStream)
    (hfails : ∀ b ∈ fails, (∃ err, connectOnce addr b = Except.error err) ∧ b.ctxDone = none)
    (hok : connectOnce addr a = Except.ok h) :
    (newStream backoff addr (fails ++ a :: rest)).attempts = fails.length + 1 ∧
      (newStream backoff addr (fails ++ a :: rest)).timers
        = (List.range fails.length).map backoff ∧
      (newStream backoff addr (fails ++ a :: rest)).errors.length = fails.length ∧
      (newStream backoff addr (fails ++ a :: rest)).result = some (Except.ok h) ∧
      (newStream backoff addr (fails ++ a :: rest)).rest = rest := by
  obtain ⟨h1, h2, h3, h4, h5⟩ := newStreamFrom_fails_then backoff addr fails (a :: rest) hfails 0
  unfold newStream
  rw [h1, h2, h3, h4, h5]
  simp [newStreamFrom, hok]

/-- C13 at the scenario of the specification, `n = 2`: two refused dials, then a
connect. -/
theorem newStream_succeeds_after_failures_witness :
    (newStream doubling agentSock ([dialRefused, dialRefused] ++ connects 1 2 :: [])).attempts
        = 3 ∧
      (newStream doubling agentSock ([dialRefused, dialRefused] ++ connects 1 2 :: [])).timers
        = [1000000000, 2000000000] ∧
      (newStream doubling agentSock ([dialRefused, dialRefused] ++ connects 1 2 :: [])).result
        = some (Except.ok { stream := 2, closer := 1 }) :=
  have h := newStream_succeeds_after_failures doubling agentSock [dialRefused, dialRefused]
    (connects 1 2) [] { stream := 2, closer := 1 }
    (by
      intro b hb
      simp only [List.mem_cons, List.mem_singleton, List.not_mem_nil, or_false, or_self] at hb
      subst hb
      exact ⟨⟨_, rfl⟩, rfl⟩)
    rfl
  ⟨h.1, h.2.1, h.2.2.2.1⟩

/-- C14: if after `n` failed attempts with full backoff waits a further attempt fails and
the context is done during the backoff wait after it, `newStream` makes no further
attempt (the rest of the environment is untouched), returns no stream and no connection
but the context's error, after `n + 1` attempts in all. -/
theorem newStream_stops_on_cancellation (backoff : Nat → Nat) (addr : String)
    (fails : List Attempt) (a : Attempt) (rest : List Attempt) (e : CtxErr)
    (hfails : ∀ b ∈ fails, (∃ err, connectOnce addr b = Except.error err) ∧ b.ctxDone = none)
    (hfail : ∃ err, connectOnce addr a = Except.error err) (hctx : a.ctxDone = some e) :
    (newStream backoff addr (fails ++ a :: rest)).result = some (Except.error e) ∧
      (newStream backoff addr (fails ++ a :: rest)).attempts = fails.length + 1 ∧
      (newStream backoff addr (fails ++ a :: rest)).rest = rest ∧
      (newStream backoff addr (fails ++ a :: rest)).timers
        = (List.range (fails.length + 1)).map backoff := by
  obtain ⟨err, herr⟩ := hfail
  obtain ⟨h1, h2, h3, h4, _⟩ := newStreamFrom_fails_then backoff addr fails (a :: rest) hfails 0
  unfold newStream
  rw [h1, h2, h3, h4]
  simp [newStreamFrom, herr, hctx, List.range_succ]

/-- C14 at one refused dial with a full wait, then a refused dial with the context
cancelled during the wait; a third attempt would have connected. -/
theorem newStream_stops_on_cancellation_witness :
    (newStream doubling agentSock
        ([dialRefused] ++ dialRefusedThenCancelled :: [connects 1 2])).result
        = some (Except.error CtxErr.canceled) ∧
      (newStream doubling agentSock
        ([dialRefused] ++ dialRefusedThenCancelled :: [connects 1 2])).attempts = 2 :=
  have h := newStream_stops_on_cancellation doubling agentSock [dialRefused]
    dialRefusedThenCancelled [connects 1 2] CtxErr.canceled
    (by
      intro b hb
      simp only [List.mem_singleton] at hb
      subst hb
      exact ⟨⟨_, rfl⟩, rfl⟩)
    ⟨_, rfl⟩ rfl
  ⟨h.1, h.2.1⟩

/-! ## Theorems: reconnect event -/

/-- C16: for every outcome of the two releases, `Close` calls `CloseSend` and then the
transport's `Close`, whatever the first returned; it returns `nil` exactly when both
returned `nil`; otherwise the returned error holds exactly the failures that occurred,
in order: the one failure when one release failed, both when both failed. -/
theorem close_releases_both (s : managedStream) (closeSend closerClose : Option String) :
    (s.Close closeSend closerClose).calls = [Release.closeSend, Release.closerClose] ∧
      ((s.Close closeSend closerClose).err = none ↔ closeSend = none ∧ closerClose = none) ∧
      (∀ e, (closeSend = some e ∨ closerClose = some e) →
        ∃ es, (s.Close closeSend closerClose).err = some es ∧ e ∈ es) ∧
      (∀ e1 e2, closeSend = some e1 → closerClose = some e2 →
        (s.Close closeSend closerClose).err = some [e1, e2]) ∧
      (∀ e1, closeSend = some e1 → closerClose = none →
        (s.Close closeSend closerClose).err = some [e1]) ∧
      (∀ e2, closeSend = none → closerClose = some e2 →
        (s.Close closeSend closerClose).err = some [e2]) := by
  cases closeSend <;> cases closerClose <;>
    simp [managedStream.Close, multierrCombine, List.filterMap, eq_comm]

/-- C16 at a handle whose two releases both fail. -/
theorem close_releases_both_witness :
    (managedStream.Close { stream := 2, closer := 1 } (some "stream: EOF")
        (some "conn: already closed")).err = some ["stream: EOF", "conn: already closed"] :=
  (close_releases_both { stream := 2, closer := 1 } (some "stream: EOF")
    (some "conn: already closed")).2.2.2.1 _ _ rfl rfl

/-! ## Theorems: cache manager construction -/

/-- C17: whenever `Attest` fails, `New` returns no manager and the attestation error,
without building the cache or the rotator and with the caller's `Config` unchanged;
whenever the identity cannot be derived from the first certificate of the obtained
chain, `New` returns no manager and the identity error, likewise before anything is built
or any field of the `Config` is set. -/
theorem new_fails_without_manager (c : Config) (getSpiffeIDFromSVID : Nat → Except String String)
    (DefaultRotatorInterval : Int) (clockNew : Nat) :
    (∀ e : String,
      New c (Except.error e) getSpiffeIDFromSVID DefaultRotatorInterval clockNew
        = { result := some (Except.error (NewErr.attest e)), config := c,
            cacheBuilt := false, rotatorBuilt := false }) ∧
    (∀ (res : AttestationResult) (cert : Nat) (rest : List Nat) (e : String),
      res.SVID = cert :: rest → getSpiffeIDFromSVID cert = Except.error e →
      New c (Except.ok res) getSpiffeIDFromSVID DefaultRotatorInterval clockNew
        = { result := some (Except.error (NewErr.spiffeID e)), config := c,
            cacheBuilt := false, rotatorBuilt := false }) := by
  constructor
  · intro e
    rfl
  · intro res cert rest e hs hf
    simp [New, hs, hf]

/-- C17 at a failing attestor and at a chain whose first certificate has no identity. -/
theorem new_fails_without_manager_witness :
    (New sampleConfig (Except.error "join token does not exist") sampleSpiffeID 60000000000 1).config
        = sampleConfig ∧
      (New sampleConfig (fakeAttest [0, 5] 9 4) sampleSpiffeID 60000000000 1).config
        = sampleConfig :=
  ⟨congrArg NewRun.config
      ((new_fails_without_manager sampleConfig sampleSpiffeID 60000000000 1).1
        "join token does not exist"),
    congrArg NewRun.config
      ((new_fails_without_manager sampleConfig sampleSpiffeID 60000000000 1).2
        { SVID := [0, 5], Key := 9, Bundle := 4 } 0 [5] _ rfl rfl)⟩

/-- C20: the code panics.  When `Attest` returns without error a result whose SVID chain
is empty, as the fake attestor made with an empty chain does, `New` returns nothing: the
index expression `as.SVID[0]` is out of range.  With a non-empty chain `New` does return,
a manager or an error. -/
theorem new_panics_on_empty_chain (c : Config) (key bundle : Nat)
    (getSpiffeIDFromSVID : Nat → Except String String) (DefaultRotatorInterval : Int)
    (clockNew : Nat) :
    (New c (fakeAttest [] key bundle) getSpiffeIDFromSVID DefaultRotatorInterval clockNew).result
        = none ∧
      ∀ (cert : Nat) (rest : List Nat),
        (New c (fakeAttest (cert :: rest) key bundle) getSpiffeIDFromSVID DefaultRotatorInterval
          clockNew).result ≠ none := by
  constructor
  · rfl
  · intro cert rest
    simp only [New, fakeAttest, List.getElem?_cons_zero]
    cases getSpiffeIDFromSVID cert <;> simp

/-! ## Theorems: container id finder -/

theorem countFrom_id_eq_occurrences :
    ∀ (n : Nat) (s : List Char), s.length ≤ n →
      countFrom ContainerIDToken 0 s = occurrences ContainerIDToken s := by
  intro n
  induction n with
  | zero =>
    intro s hs
    have : s = [] := List.length_eq_zero.mp (Nat.le_zero.mp hs)
    subst this
    rfl
  | succ n ih =>
    intro s hs
    cases s with
    | nil => rfl
    | cons c cs =>
      by_cases hp : ContainerIDToken.isPrefixOf (c :: cs) = true
      · obtain ⟨t, ht⟩ := List.isPrefixOf_iff_prefix.mp hp
        have hid : ContainerIDToken = ['<', 'i', 'd', '>'] := by decide
        rw [hid] at ht
        simp only [List.cons_append, List.nil_append, List.cons.injEq] at ht
        obtain ⟨hc, hcs⟩ := ht
        subst hc
        subst hcs
        have hlen : t.length ≤ n := by
          simp only [List.length_cons] at hs
          omega
        have hrec := ih t hlen
        rw [hid]
        simp [countFrom, occurrences, List.isPrefixOf]
        rw [hid] at hrec
        exact hrec
      · have hlen : cs.length ≤ n := by
          simp only [List.length_cons] at hs
          omega
        have hrec := ih cs hlen
        simp only [countFrom, occurrences, hp, Bool.false_eq_true, if_false, Nat.zero_add]
        exact hrec

/-- C19: `NewContainerIDFetcher` rejects every pattern in which `<id>` does not occur
exactly once: when the number of positions at which `<id>` occurs is zero, or two or
more, it returns the token count error and no finder. -/
theorem rejects_unless_one_id (pattern : String)
    (h : occurrences ContainerIDToken pattern.toList ≠ 1) :
    NewContainerIDFetcher pattern = FetcherRes.errTokenCount := by
  unfold NewContainerIDFetcher
  rw [countFrom_id_eq_occurrences _ _ (le_refl _), if_pos h]

/-- C19 at a pattern with two id tokens. -/
theorem rejects_unless_one_id_witness :
    NewContainerIDFetcher "/docker/<id>/<id>" = FetcherRes.errTokenCount :=
  rejects_unless_one_id "/docker/<id>/<id>" (by decide)

/-- C18: the code reads the pattern as a regular expression.  With the pattern
`/my.slice/*/<id>/*` of the documentation the dot matches any character: for the cgroup
`/myXslice/a/abc/d`, which does not begin with `/my.slice/`, the finder returns
`("abc", true)`, where the simplified language gives `("", false)`.  With the pattern
`/x/(*)/<id>` the parentheses make a group of their own and the finder returns the text
matched by the wildcard. -/
theorem finder_reads_pattern_as_regexp :
    HasPrefix "/myXslice/a/abc/d" "/my.slice/" = false ∧
      findWithPattern "/my.slice/*/<id>/*" "/myXslice/a/abc/d" = some ("abc", true) ∧
      simpleLanguageFind "/my.slice/*/<id>/*" "/myXslice/a/abc/d" = ("", false) ∧
      findWithPattern "/x/(*)/<id>" "/x/abc/def" = some ("abc", true) ∧
      simpleLanguageFind "/x/(*)/<id>" "/x/abc/def" = ("", false) := by
  refine ⟨?_, ?_, ?_, ?_, ?_⟩ <;> decide

end Spire
